import Mathlib

/-!
Bloxy: the puzzle state machine of `components/game.js`.

A shallow embedding of the `Game` class (`src/src/components/game.js`) and of
the parts of its collaborators that `Game` reads or writes.  Rendering calls
(`renderer.render`, `addBlockToScene`, `renderTile`, camera and light
placement) have no effect on the puzzle state and are left out.  The methods
of the earlier version (`src/components/game.js`) that are compared with it
are embedded in the namespace `Old`.

JavaScript exceptions (a `TypeError` raised by reading a property of
`undefined`) are modelled by `Option`: `none` means that the call threw.
-/

namespace Bloxy

/-! ## Data model -/

/-- A board tile: the fields of a `Tile` object that `Game` reads or writes.
`type` is the string tag the `switch` of `receiveMove` dispatches on. -/
structure Tile where
  type : String
  isActivated : Bool
  bridgeCoords : List (Int × Int)
deriving DecidableEq, Repr

/-- The value of `board.tiles`: an array of rows, each an array of tiles. -/
abbrev Tiles := List (List Tile)

/-- Modelled from the spec: a start position of a level (`constants.js` is not
among the sources); only ever copied, never inspected, by `Game`. -/
structure Position where
  x : Int
  y : Int
  z : Int
deriving DecidableEq, Repr

/-- Modelled from the spec: one cell of a declarative board layout, "per-cell
type plus activator to bridge links" (`constants.js` is not among the
sources). -/
structure CellSpec where
  type : String
  bridgeCoords : List (Int × Int)
deriving DecidableEq, Repr

/-- A declarative board layout, the argument of `createTiles`. -/
abbrev Layout := List (List CellSpec)

/-- One entry of the `LEVELS` table, with the two fields the puzzle logic
reads (`cameraPosition` and `lightPosition` only feed the renderer). -/
structure Level where
  board : Layout
  startPosition : Position
deriving DecidableEq, Repr

/-- Modelled from the spec: the part of a `Block` that its own methods
recompute (`block.js` is not among the sources): the derived `alignment`
(`"y"` when standing upright), the occupied `coords`, each an `(x, z)` pair in
the order `receiveMove` takes them, and the value returned by `height()`. -/
structure Pose where
  alignment : String
  coords : List (Int × Int)
  height : Int
deriving DecidableEq, Repr

/-- Modelled from the spec: the `Block` object as `Game` sees it (`block.js`
is not among the sources): the field `initialPos`, which `startNextLevel`
assigns, and the pose, which the block's own methods maintain. -/
structure Block where
  initialPos : Position
  pose : Pose
deriving DecidableEq, Repr

/-- The alignment read by `this.block.alignment`. -/
def Block.alignment (b : Block) : String := b.pose.alignment

/-- The array read by `this.block.coords`. -/
def Block.coords (b : Block) : List (Int × Int) := b.pose.coords

/-- The value of `this.block.height()`. -/
def Block.height (b : Block) : Int := b.pose.height

/-- The collaborators of `Game` whose code is not among the sources, taken as
parameters: the `LEVELS` table, `Board.createTiles`, and the methods of
`Block`.  Angles are counted in quarter turns (`Math.PI/2` is `1`). -/
structure Env where
  LEVELS : List Level
  createTiles : Layout → Tiles
  newBlock : Position → Pose
  rotate : Int → Int → Int → Pose → Pose
  move : Int → Int → Int → Pose → Pose
  drop : Pose → Pose
  reset : Position → Pose → Pose
  startLevel : Position → Pose → Pose

/-- A callback registered with `setTimeout(..., 1500)` that has not run yet:
`startNextLevel` (registered by `win`) or the cleanup closure of `lose`. -/
inductive Timer where
  | startNextLevel
  | loseCleanup
deriving DecidableEq, Repr

/-- The mutable state of a `Game` together with the browser state it drives:
whether `handleKeydown` is attached to `keydown`, the target heights of the
`dropBlock` calls waiting in `requestAnimationFrame`, and the pending timers
(all with the same delay, so they fire in the order they were set). -/
structure Game where
  level : Int
  moves : Nat
  movesThisLevel : Nat
  scoreboard : Nat
  modalDisplay : String
  checkNextCoord : Bool
  tiles : Tiles
  block : Block
  activators : List Tile
  listening : Bool
  frames : List Int
  timers : List Timer
deriving DecidableEq, Repr

/-- The constant `KEYDOWN_EVENTS`. -/
def KEYDOWN_EVENTS : List String :=
  ["ArrowLeft", "ArrowUp", "ArrowRight", "ArrowDown"]

/-! ## Tile lookup and update -/

/-- The expression `tiles[row] && tiles[row][col]`: the tile at row `row`,
column `col`, or `none` (a falsy value) when the row or the tile is missing.
A negative index never addresses an array element. -/
def tileAt (tiles : Tiles) (row col : Int) : Option Tile :=
  if row < 0 ∨ col < 0 then none
  else
    match tiles[row.toNat]? with
    | none => none
    | some r => r[col.toNat]?

/-- The lookup of `receiveMove`:
`(tiles[z] && tiles[z][x]) ? tiles[z][x] : tiles[1][1]`.  The result is `none`
when the fallback `tiles[1][1]` does not exist either (then `tile.type`, or
`tiles[1][1]` itself, throws). -/
def lookupTile (tiles : Tiles) (x z : Int) : Option Tile :=
  match tileAt tiles z x with
  | some t => some t
  | none => tileAt tiles 1 1

/-- Overwrite the `isActivated` flag of the tile at `tiles[row][col]` with
`f` of its old value; `none` when `tiles[row][col]` does not exist (the
property access on `undefined` throws). -/
def updateFlag (f : Bool → Bool) (tiles : Tiles) (row col : Int) : Option Tiles :=
  match tileAt tiles row col with
  | none => none
  | some t =>
    some (tiles.set row.toNat
      ((tiles.getD row.toNat []).set col.toNat { t with isActivated := f t.isActivated }))

/-- The loop `bridgeCoords.forEach(coord => ...)` over
`tiles[coord[0]][coord[1]]`, writing `f` of the old flag into each. -/
def updateFlags (f : Bool → Bool) : Tiles → List (Int × Int) → Option Tiles
  | tiles, [] => some tiles
  | tiles, coord :: rest =>
    match updateFlag f tiles coord.1 coord.2 with
    | none => none
    | some tiles' => updateFlags f tiles' rest

/-! ## The methods of `Game` -/

/-- Method `listenKeydown`. -/
def listenKeydown (g : Game) : Game := { g with listening := true }

/-- Method `unlistenKeydown`. -/
def unlistenKeydown (g : Game) : Game := { g with listening := false }

/-- Method `dropBlock(targetHeight)`: one call; the next call waits in
`requestAnimationFrame`. -/
def dropBlock (env : Env) (g : Game) (targetHeight : Int) : Game :=
  if g.block.height > targetHeight then
    { g with
      frames := g.frames ++ [targetHeight]
      block := { g.block with pose := env.drop g.block.pose } }
  else
    listenKeydown g

/-- The first two lines of `updateScore(newScore)`; `newScore` is `none` for
a call without argument (`typeof newScore` is then `"undefined"`). -/
def updateCounters (g : Game) (newScore : Option Nat) : Game :=
  let movesThisLevel :=
    match newScore with
    | some n => n
    | none => g.movesThisLevel + 1
  { g with movesThisLevel := movesThisLevel, scoreboard := g.moves + movesThisLevel }

/-- Method `win`.  Its call `updateScore(0)` only runs the first two lines of
`updateScore`, the argument being a number. -/
def win (env : Env) (g : Game) : Game :=
  let g := { g with checkNextCoord := false }
  let g := unlistenKeydown g
  let g := dropBlock env g (-1600)
  let g := { g with moves := g.moves + g.movesThisLevel }
  let g := { g with activators := [] }
  let g := updateCounters g (some 0)
  { g with timers := g.timers ++ [Timer.startNextLevel] }

/-- Method `lose`, up to the registration of its cleanup closure. -/
def lose (env : Env) (g : Game) : Game :=
  let g := { g with checkNextCoord := false }
  let g := unlistenKeydown g
  let g := dropBlock env g (-1600)
  { g with timers := g.timers ++ [Timer.loseCleanup] }

/-- Method `receiveMove(x, z)`. -/
def receiveMove (env : Env) (g : Game) (x z : Int) : Option Game :=
  if g.checkNextCoord = false then
    some { g with checkNextCoord := true }
  else
    match lookupTile g.tiles x z with
    | none => none
    | some tile =>
      if tile.type = "normal" then some g
      else if tile.type = "empty" then some (lose env g)
      else if tile.type = "goal" then
        if g.block.alignment = "y" then some (win env g) else some g
      else if tile.type = "bridge" then
        if tile.isActivated = false then some (lose env g) else some g
      else if tile.type = "activator" then
        let g := { g with activators := g.activators ++ [tile] }
        match updateFlags (fun wasActivated => !wasActivated) g.tiles tile.bridgeCoords with
        | none => none
        | some tiles =>
          let g := { g with tiles := tiles }
          if g.block.alignment = "y" then some { g with checkNextCoord := false }
          else some g
      else if tile.type = "fragile" then
        if g.block.alignment = "y" then some (lose env g) else some g
      else some g

/-- The loop `this.block.coords.forEach(coord => this.receiveMove(...coord))`
over an array of coordinates already read from the block. -/
def receiveMoves (env : Env) : Game → List (Int × Int) → Option Game
  | g, [] => some g
  | g, coord :: rest =>
    match receiveMove env g coord.1 coord.2 with
    | none => none
    | some g' => receiveMoves env g' rest

/-- Method `updateScore(newScore)`. -/
def updateScore (env : Env) (g : Game) (newScore : Option Nat) : Option Game :=
  let g := updateCounters g newScore
  match newScore with
  | some _ => some g
  | none => receiveMoves env g g.block.coords

/-- The `switch` of `handleKeydown`: the block after the paired rotation and
translation of an arrow key, `none` for the `default` case. -/
def rollBlock (env : Env) (key : String) (pose : Pose) : Option Pose :=
  if key = "ArrowLeft" then some (env.move (-1) 0 0 (env.rotate 0 0 1 pose))
  else if key = "ArrowUp" then some (env.move 0 0 (-1) (env.rotate 1 0 0 pose))
  else if key = "ArrowRight" then some (env.move 1 0 0 (env.rotate 0 0 (-1) pose))
  else if key = "ArrowDown" then some (env.move 0 0 1 (env.rotate (-1) 0 0 pose))
  else none

/-- Method `handleKeydown(e)`, as a function of `e.key`. -/
def handleKeydown (env : Env) (g : Game) (key : String) : Option Game :=
  match rollBlock env key g.block.pose with
  | none => some g
  | some pose =>
    let g := { g with block := { g.block with pose := pose } }
    if key ∈ KEYDOWN_EVENTS then updateScore env g none else some g

/-- The lookup `LEVELS[level]`: `none` for `undefined`. -/
def levelAt (env : Env) (level : Int) : Option Level :=
  if level < 0 then none else env.LEVELS[level.toNat]?

/-- Method `renderLevel`: reading `cameraPosition` from `LEVELS[this.level]`
throws when the level does not exist. -/
def renderLevel (env : Env) (g : Game) : Option Game :=
  match levelAt env g.level with
  | none => none
  | some _ => some (dropBlock env g 140)

/-- Method `startNextLevel`. -/
def startNextLevel (env : Env) (g : Game) : Option Game :=
  let g := { g with checkNextCoord := true }
  let g := { g with level := g.level + 1 }
  if g.level = (6 : Int) then
    some { g with modalDisplay := "flex" }
  else
    match levelAt env g.level with
    | none => none
    | some lvl =>
      let g := { g with block := { g.block with initialPos := lvl.startPosition } }
      let g := { g with block := { g.block with pose := env.startLevel g.block.initialPos g.block.pose } }
      let g := { g with tiles := env.createTiles lvl.board }
      renderLevel env g

/-- The loop `this.activators.forEach(activator =>
activator.bridgeCoords.forEach(...))` of the cleanup closure of `lose`,
which writes `false` into every linked tile. -/
def resetBridges : Tiles → List Tile → Option Tiles
  | tiles, [] => some tiles
  | tiles, activator :: rest =>
    match updateFlags (fun _ => false) tiles activator.bridgeCoords with
    | none => none
    | some tiles' => resetBridges tiles' rest

/-- The closure that `lose` hands to `setTimeout`. -/
def loseCleanup (env : Env) (g : Game) : Option Game :=
  let g := updateCounters g (some 0)
  let g := { g with block := { g.block with pose := env.reset g.block.initialPos g.block.pose } }
  let g := { g with checkNextCoord := true }
  match resetBridges g.tiles g.activators with
  | none => none
  | some tiles => some { g with tiles := tiles }

/-- Method `reset`. -/
def reset (env : Env) (g : Game) : Option Game :=
  let g := { g with modalDisplay := "none" }
  let g := { g with level := -1 }
  let g := { g with moves := 0 }
  let g := { g with movesThisLevel := 0 }
  let g := { g with scoreboard := g.moves }
  startNextLevel env g

/-- A run of accepted inputs: `handleKeydown` for each key in turn. -/
def play (env : Env) : Game → List String → Option Game
  | g, [] => some g
  | g, key :: rest =>
    match handleKeydown env g key with
    | none => none
    | some g' => play env g' rest

/-! ## The event loop -/

/-- An event the browser delivers to the game: a key press, the next
animation frame, the expiry of the oldest pending timer, or a click on the
button of the completion modal. -/
inductive Event where
  | keydown (key : String)
  | animationFrame
  | timeout
  | click
deriving DecidableEq, Repr

/-- The delivery of one event.  A key press reaches `handleKeydown` only
while the listener is attached; an animation frame runs the oldest waiting
callback `() => this.dropBlock(targetHeight)`; a timeout runs the oldest
callback handed to `setTimeout`; a click on the modal button runs `reset()`. -/
def dispatch (env : Env) (g : Game) : Event → Option Game
  | Event.keydown key => if g.listening = true then handleKeydown env g key else some g
  | Event.animationFrame =>
    match g.frames with
    | [] => some g
    | targetHeight :: rest => some (dropBlock env { g with frames := rest } targetHeight)
  | Event.timeout =>
    match g.timers with
    | [] => some g
    | Timer.startNextLevel :: rest => startNextLevel env { g with timers := rest }
    | Timer.loseCleanup :: rest => loseCleanup env { g with timers := rest }
  | Event.click => reset env g

/-- The delivery of a sequence of events, one after the other. -/
def run (env : Env) : Game → List Event → Option Game
  | g, [] => some g
  | g, event :: rest =>
    match dispatch env g event with
    | none => none
    | some g' => run env g' rest

/-- The constructor of `Game`: the state it builds from `LEVELS[0]`, followed
by its call of `renderLevel()`.  The scoreboard element, which the
constructor does not write, is taken to show 0 and the modal to be hidden;
`new Board` is taken to build its tiles with `createTiles` and `new Block` to
keep the start position as `initialPos`. -/
def newGame (env : Env) : Option Game :=
  match levelAt env 0 with
  | none => none
  | some lvl =>
    renderLevel env
      { level := 0
        moves := 0
        movesThisLevel := 0
        scoreboard := 0
        modalDisplay := "none"
        checkNextCoord := true
        tiles := env.createTiles lvl.board
        block := { initialPos := lvl.startPosition, pose := env.newBlock lvl.startPosition }
        activators := []
        listening := false
        frames := []
        timers := [] }

/-! ## The earlier version of `Game` (`src/components/game.js`) -/

namespace Old

/-- A callback that the earlier version has registered with `setTimeout` and
that has not run yet: the closure of `win`, which advances the level, or the
cleanup closure of `lose`. -/
inductive Timer where
  | nextLevel
  | loseCleanup
deriving DecidableEq, Repr

/-- The mutable state of the earlier `Game`, which has neither
`movesThisLevel` nor `activators` nor a modal, with the browser state it
drives. -/
structure Game where
  level : Int
  moves : Nat
  scoreboard : Nat
  checkNextCoord : Bool
  tiles : Tiles
  block : Block
  listening : Bool
  frames : List Int
  timers : List Timer
deriving DecidableEq, Repr

/-- Method `listenKeydown` of the earlier version. -/
def listenKeydown (g : Game) : Game := { g with listening := true }

/-- Method `unlistenKeydown` of the earlier version. -/
def unlistenKeydown (g : Game) : Game := { g with listening := false }

/-- Method `dropBlock(height)` of the earlier version, which reads the height
of the block from `this.block.block.position.y`. -/
def dropBlock (env : Env) (g : Game) (height : Int) : Game :=
  if g.block.height > height then
    { g with
      frames := g.frames ++ [height]
      block := { g.block with pose := env.drop g.block.pose } }
  else
    listenKeydown g

/-- Method `win` of the earlier version, up to the registration of its
closure. -/
def win (env : Env) (g : Game) : Game :=
  let g := { g with checkNextCoord := false }
  let g := unlistenKeydown g
  let g := dropBlock env g (-1600)
  { g with timers := g.timers ++ [Timer.nextLevel] }

/-- Method `lose` of the earlier version, up to the registration of its
cleanup closure. -/
def lose (env : Env) (g : Game) : Game :=
  let g := { g with checkNextCoord := false }
  let g := unlistenKeydown g
  let g := dropBlock env g (-1600)
  { g with timers := g.timers ++ [Timer.loseCleanup] }

/-- Method `receiveMove(x, z)` of the earlier version. -/
def receiveMove (env : Env) (g : Game) (x z : Int) : Option Game :=
  if g.checkNextCoord = false then
    some { g with checkNextCoord := true }
  else
    match lookupTile g.tiles x z with
    | none => none
    | some tile =>
      if tile.type = "normal" then some g
      else if tile.type = "empty" then some (lose env g)
      else if tile.type = "goal" then
        if g.block.alignment = "y" then some (win env g) else some g
      else if tile.type = "bridge" then
        if tile.isActivated = false then some (lose env g) else some g
      else if tile.type = "activator" then
        match updateFlags (fun wasActivated => !wasActivated) g.tiles tile.bridgeCoords with
        | none => none
        | some tiles =>
          let g := { g with tiles := tiles }
          if g.block.alignment = "y" then some { g with checkNextCoord := false }
          else some g
      else if tile.type = "fragile" then
        if g.block.alignment = "y" then some (lose env g) else some g
      else some g

end Old

/-- What a call of `receiveMove` triggered: nothing, `win()` or `lose()`. -/
inductive Outcome where
  | nothing
  | win
  | lose
deriving DecidableEq, Repr

/-- The outcome of a call that took the newer `Game` from `g` to `g'`, read
off the timer it set. -/
def outcome (g g' : Game) : Outcome :=
  if g'.timers = g.timers ++ [Timer.startNextLevel] then Outcome.win
  else if g'.timers = g.timers ++ [Timer.loseCleanup] then Outcome.lose
  else Outcome.nothing

/-- The outcome of a call that took the earlier `Game` from `g` to `g'`, read
off the timer it set. -/
def Old.outcome (g g' : Old.Game) : Outcome :=
  if g'.timers = g.timers ++ [Old.Timer.nextLevel] then Outcome.win
  else if g'.timers = g.timers ++ [Old.Timer.loseCleanup] then Outcome.lose
  else Outcome.nothing

/-! ## Observations on a transition -/

/-- Between `g` and `g'`, `win()` was called once (and `lose()` was not): the
timer of `startNextLevel` is the one new pending timer. -/
def winTriggered (g g' : Game) : Prop :=
  g'.timers = g.timers ++ [Timer.startNextLevel]

/-- Between `g` and `g'`, `lose()` was called once (and `win()` was not): its
cleanup closure is the one new pending timer. -/
def loseTriggered (g g' : Game) : Prop :=
  g'.timers = g.timers ++ [Timer.loseCleanup]

instance (g g' : Game) : Decidable (winTriggered g g') :=
  inferInstanceAs (Decidable (g'.timers = g.timers ++ [Timer.startNextLevel]))

instance (g g' : Game) : Decidable (loseTriggered g g') :=
  inferInstanceAs (Decidable (g'.timers = g.timers ++ [Timer.loseCleanup]))

/-- Every coordinate in `coords` addresses an existing tile of the board. -/
def InBounds (tiles : Tiles) (coords : List (Int × Int)) : Prop :=
  ∀ coord ∈ coords, (tileAt tiles coord.1 coord.2).isSome

instance (tiles : Tiles) (coords : List (Int × Int)) : Decidable (InBounds tiles coords) :=
  inferInstanceAs (Decidable (∀ coord ∈ coords, (tileAt tiles coord.1 coord.2).isSome))

/-- A board on which every lookup of `Game` succeeds: the fallback tile at
row 1, column 1 exists, and every tile's `bridgeCoords` are in bounds. -/
def WellLinked (tiles : Tiles) : Prop :=
  (tileAt tiles 1 1).isSome ∧ ∀ r ∈ tiles, ∀ t ∈ r, InBounds tiles t.bridgeCoords

instance (tiles : Tiles) : Decidable (WellLinked tiles) :=
  inferInstanceAs
    (Decidable ((tileAt tiles 1 1).isSome ∧ ∀ r ∈ tiles, ∀ t ∈ r, InBounds tiles t.bridgeCoords))

/-! ## Sample data -/

/-- A tile of the given type, not activated, without links. -/
def plainTile (type : String) : Tile :=
  { type := type, isActivated := false, bridgeCoords := [] }

/-- Block methods that leave the pose alone, and an empty level table. -/
def idleEnv : Env :=
  { LEVELS := []
    createTiles := fun _ => []
    newBlock := fun _ => { alignment := "y", coords := [], height := 0 }
    rotate := fun _ _ _ pose => pose
    move := fun _ _ _ pose => pose
    drop := fun pose => pose
    reset := fun _ pose => pose
    startLevel := fun _ pose => pose }

/-- Modelled from the spec: the pose of a 1 by 1 by 2 block after it tips by
`(dx, dz)`: an upright block comes to lie on the next two cells, a block
lying along the direction of the move stands up on the cell beyond it, and a
block lying across it rolls sideways.  This block keeps one coordinate pair
in `coords` while it stands, as section 4.1 of the spec has it; `tipPair` is
the block that keeps the pair twice, as section 3 of the spec and the
constructor comment of game.js have it. -/
def tip (dx dz : Int) (pose : Pose) : Pose :=
  match pose.coords with
  | [(x, z)] =>
    if dx = 1 then { pose with alignment := "x", coords := [(x + 1, z), (x + 2, z)] }
    else if dx = -1 then { pose with alignment := "x", coords := [(x - 2, z), (x - 1, z)] }
    else if dz = 1 then { pose with alignment := "z", coords := [(x, z + 1), (x, z + 2)] }
    else if dz = -1 then { pose with alignment := "z", coords := [(x, z - 2), (x, z - 1)] }
    else pose
  | [(x1, z1), (x2, z2)] =>
    if pose.alignment = "x" ∧ dx = 1 then
      { pose with alignment := "y", coords := [(x2 + 1, z2)] }
    else if pose.alignment = "x" ∧ dx = -1 then
      { pose with alignment := "y", coords := [(x1 - 1, z1)] }
    else if pose.alignment = "z" ∧ dz = 1 then
      { pose with alignment := "y", coords := [(x2, z2 + 1)] }
    else if pose.alignment = "z" ∧ dz = -1 then
      { pose with alignment := "y", coords := [(x1, z1 - 1)] }
    else { pose with coords := [(x1 + dx, z1 + dz), (x2 + dx, z2 + dz)] }
  | _ => pose

/-- Modelled from the spec: `createTiles` builds one tile per layout cell,
with its type and links, not activated. -/
def buildTiles (layout : Layout) : Tiles :=
  layout.map (fun row => row.map (fun cell =>
    { type := cell.type, isActivated := false, bridgeCoords := cell.bridgeCoords }))

/-- A level of two rows whose block starts at the origin. -/
def sampleLevel : Level :=
  { board :=
      [ [{ type := "normal", bridgeCoords := [] }, { type := "goal", bridgeCoords := [] }],
        [{ type := "normal", bridgeCoords := [] }, { type := "normal", bridgeCoords := [] }] ]
    startPosition := { x := 0, y := 1000, z := 0 } }

/-- Six copies of `sampleLevel` and block methods for a rolling block: `move`
tips the block, `drop` lowers it by 100, `reset` and `startLevel` stand it upright at the start position. -/
def rollingEnv : Env :=
  { LEVELS := List.replicate 6 sampleLevel
    createTiles := buildTiles
    newBlock := fun pos => { alignment := "y", coords := [(pos.x, pos.z)], height := 140 }
    rotate := fun _ _ _ pose => pose
    move := fun dx _ dz pose => tip dx dz pose
    drop := fun pose => { pose with height := pose.height - 100 }
    reset := fun pos _ => { alignment := "y", coords := [(pos.x, pos.z)], height := 140 }
    startLevel := fun pos _ => { alignment := "y", coords := [(pos.x, pos.z)], height := 1000 } }

/-- An activator linked to the tile at row 1, column 1. -/
def leakActivator : Tile :=
  { type := "activator", isActivated := false, bridgeCoords := [(1, 1)] }

/-- A board of two rows: in row 0 an activator at column 2, linked to the
bridge at row 1, column 1, followed by an empty tile at column 3. -/
def leakTiles : Tiles :=
  [ [plainTile "normal", plainTile "normal", leakActivator, plainTile "empty",
      plainTile "normal"],
    [plainTile "normal", plainTile "bridge", plainTile "normal", plainTile "normal",
      plainTile "normal"] ]

/-- A game in play on the given board with the given block pose: counters at
zero, nothing pending, the key listener attached. -/
def gameOn (tiles : Tiles) (alignment : String) (coords : List (Int × Int)) : Game :=
  { level := 0
    moves := 0
    movesThisLevel := 0
    scoreboard := 0
    modalDisplay := "none"
    checkNextCoord := true
    tiles := tiles
    block :=
      { initialPos := { x := 0, y := 0, z := 0 }
        pose := { alignment := alignment, coords := coords, height := 140 } }
    activators := []
    listening := true
    frames := []
    timers := [] }

/-- An activator linked to the tile at row 2, column 1. -/
def sampleActivator : Tile :=
  { type := "activator", isActivated := false, bridgeCoords := [(2, 1)] }

/-- A 3 by 3 board: a goal at row 0, column 2, an activator at row 1, column 1
linked to the bridge at row 2, column 1, a fragile tile and an empty tile. -/
def sampleTiles : Tiles :=
  [ [plainTile "normal", plainTile "normal", plainTile "goal"],
    [plainTile "fragile", sampleActivator, plainTile "normal"],
    [plainTile "empty", plainTile "bridge", plainTile "normal"] ]

/-- The state after a block lying on the activator of `leakTiles` and on the
empty tile next to it has had both coordinates evaluated. -/
def leakAfter : Game :=
  (receiveMoves rollingEnv (gameOn leakTiles "x" [(2, 0), (3, 0)]) [(2, 0), (3, 0)]).getD
    (gameOn leakTiles "x" [(2, 0), (3, 0)])

/-- A level of two rows: a corridor from the start at column 0 to the goal
at column 3 of row 0, and empty tiles below the start and below the goal. -/
def corridorLevel : Level :=
  { board :=
      [ [{ type := "normal", bridgeCoords := [] }, { type := "normal", bridgeCoords := [] },
          { type := "normal", bridgeCoords := [] }, { type := "goal", bridgeCoords := [] }],
        [{ type := "empty", bridgeCoords := [] }, { type := "normal", bridgeCoords := [] },
          { type := "normal", bridgeCoords := [] }, { type := "empty", bridgeCoords := [] }] ]
    startPosition := { x := 0, y := 740, z := 0 } }

/-- Six copies of `corridorLevel` and a rolling block that enters at height
740, rests at height 140 and drops by 600 in each animation frame. -/
def corridorEnv : Env :=
  { LEVELS := List.replicate 6 corridorLevel
    createTiles := buildTiles
    newBlock := fun pos => { alignment := "y", coords := [(pos.x, pos.z)], height := pos.y }
    rotate := fun _ _ _ pose => pose
    move := fun dx _ dz pose => tip dx dz pose
    drop := fun pose => { pose with height := pose.height - 600 }
    reset := fun pos _ => { alignment := "y", coords := [(pos.x, pos.z)], height := 140 }
    startLevel := fun pos _ => { alignment := "y", coords := [(pos.x, pos.z)], height := pos.y } }

/-- The events of one level of `corridorEnv` played to its end: the block
drops in, rolls right twice onto the goal, drops out in three frames, and the
timer set by `win()` expires. -/
def corridorRound : List Event :=
  [Event.animationFrame, Event.keydown "ArrowRight", Event.keydown "ArrowRight",
    Event.animationFrame, Event.animationFrame, Event.animationFrame, Event.timeout]

/-- The six levels of `corridorEnv` played to the end, from a new game. -/
def corridorCompleted : Option Game :=
  (newGame corridorEnv).bind (fun g =>
    run corridorEnv g
      (corridorRound ++ corridorRound ++ corridorRound ++ corridorRound ++ corridorRound ++
        corridorRound))

/-- A game of the earlier version in play on the given board with the given
block pose: nothing pending, the key listener attached. -/
def oldGameOn (tiles : Tiles) (alignment : String) (coords : List (Int × Int)) : Old.Game :=
  { level := 1
    moves := 0
    scoreboard := 0
    checkNextCoord := true
    tiles := tiles
    block :=
      { initialPos := { x := 0, y := 0, z := 0 }
        pose := { alignment := alignment, coords := coords, height := 140 } }
    listening := true
    frames := []
    timers := [] }

/-- Modelled from the spec: the pose of a 1 by 1 by 2 block that keeps two
entries in `coords` in every pose, both equal while it stands (section 3 of
the spec and the constructor comment of game.js: "both occupied coordinates
are equal"), after it tips by `(dx, dz)`.  The cells it comes to occupy are
those of `tip`. -/
def tipPair (dx dz : Int) (pose : Pose) : Pose :=
  match pose.coords with
  | [(x1, z1), (x2, z2)] =>
    if pose.alignment = "y" then
      if dx = 1 then { pose with alignment := "x", coords := [(x1 + 1, z1), (x1 + 2, z1)] }
      else if dx = -1 then { pose with alignment := "x", coords := [(x1 - 2, z1), (x1 - 1, z1)] }
      else if dz = 1 then { pose with alignment := "z", coords := [(x1, z1 + 1), (x1, z1 + 2)] }
      else if dz = -1 then { pose with alignment := "z", coords := [(x1, z1 - 2), (x1, z1 - 1)] }
      else pose
    else if pose.alignment = "x" ∧ dx = 1 then
      { pose with alignment := "y", coords := [(x2 + 1, z2), (x2 + 1, z2)] }
    else if pose.alignment = "x" ∧ dx = -1 then
      { pose with alignment := "y", coords := [(x1 - 1, z1), (x1 - 1, z1)] }
    else if pose.alignment = "z" ∧ dz = 1 then
      { pose with alignment := "y", coords := [(x2, z2 + 1), (x2, z2 + 1)] }
    else if pose.alignment = "z" ∧ dz = -1 then
      { pose with alignment := "y", coords := [(x1, z1 - 1), (x1, z1 - 1)] }
    else { pose with coords := [(x1 + dx, z1 + dz), (x2 + dx, z2 + dz)] }
  | _ => pose

/-- Modelled from the spec: a block standing on the cell `(x, z)` at the
given height, with one entry in `coords` (section 4.1 of the spec) or, when
`paired`, with the same entry twice (section 3 of the spec). -/
def stand (paired : Bool) (x z height : Int) : Pose :=
  { alignment := "y"
    coords := if paired then [(x, z), (x, z)] else [(x, z)]
    height := height }

/-- Modelled from the spec: the given level table and a rolling block that
enters at the height of the start position, rests at height 140 and drops by
600 in each animation frame; `paired` selects the block that keeps two
entries in `coords` while it stands. -/
def blockEnv (levels : List Level) (paired : Bool) : Env :=
  { LEVELS := levels
    createTiles := buildTiles
    newBlock := fun pos => stand paired pos.x pos.z pos.y
    rotate := fun _ _ _ pose => pose
    move := fun dx _ dz pose => if paired then tipPair dx dz pose else tip dx dz pose
    drop := fun pose => { pose with height := pose.height - 600 }
    reset := fun pos _ => stand paired pos.x pos.z 140
    startLevel := fun pos _ => stand paired pos.x pos.z pos.y }

/-- A level of two rows with an empty tile at column 2 of row 0 and another
at column 1 of row 1; the block starts at the origin. -/
def gapLevel : Level :=
  { board :=
      [ [{ type := "normal", bridgeCoords := [] }, { type := "normal", bridgeCoords := [] },
          { type := "empty", bridgeCoords := [] }, { type := "normal", bridgeCoords := [] }],
        [{ type := "normal", bridgeCoords := [] }, { type := "empty", bridgeCoords := [] },
          { type := "normal", bridgeCoords := [] }, { type := "normal", bridgeCoords := [] }] ]
    startPosition := { x := 0, y := 740, z := 0 } }

/-- The events of a lost move on `gapLevel`: the block drops in, rolls right
onto the cells `(1, 0)` and `(2, 0)`, and drops out in three frames. -/
def gapRun : List Event :=
  [Event.animationFrame, Event.keydown "ArrowRight", Event.animationFrame,
    Event.animationFrame, Event.animationFrame]

/-- The state after `gapRun`, from a new game on `gapLevel`: the cleanup of
`lose()` is still to run. -/
def gapPending (paired : Bool) : Option Game :=
  (newGame (blockEnv [gapLevel] paired)).bind (fun g =>
    run (blockEnv [gapLevel] paired) g gapRun)

/-- A level of one row: a goal at column 3 and, beyond it, an activator at
column 5 linked to the bridge at row 0, column 6. -/
def wideLevel : Level :=
  { board :=
      [ [{ type := "normal", bridgeCoords := [] }, { type := "normal", bridgeCoords := [] },
          { type := "normal", bridgeCoords := [] }, { type := "goal", bridgeCoords := [] },
          { type := "normal", bridgeCoords := [] },
          { type := "activator", bridgeCoords := [(0, 6)] },
          { type := "bridge", bridgeCoords := [] }] ]
    startPosition := { x := 0, y := 740, z := 0 } }

/-- A level of two rows of five tiles: an activator at column 1 of row 0,
linked to the bridge at row 1, column 1, and an empty tile next to it. -/
def narrowLevel : Level :=
  { board :=
      [ [{ type := "normal", bridgeCoords := [] },
          { type := "activator", bridgeCoords := [(1, 1)] },
          { type := "empty", bridgeCoords := [] }, { type := "normal", bridgeCoords := [] },
          { type := "normal", bridgeCoords := [] }],
        [{ type := "normal", bridgeCoords := [] }, { type := "bridge", bridgeCoords := [] },
          { type := "normal", bridgeCoords := [] }, { type := "normal", bridgeCoords := [] },
          { type := "normal", bridgeCoords := [] }] ]
    startPosition := { x := 0, y := 740, z := 0 } }

/-- The events of a game on `wideLevel` and `narrowLevel` up to the expiry
of the timer set by `lose()`: the first level is won, a key press before the
next level loads rolls the block over the activator of `wideLevel`, the timer
of `win()` expires, and on `narrowLevel` the block rolls over the activator
and the empty tile and drops out. -/
def staleRun : List Event :=
  [Event.animationFrame, Event.keydown "ArrowRight", Event.keydown "ArrowRight",
    Event.animationFrame, Event.animationFrame, Event.animationFrame,
    Event.keydown "ArrowRight", Event.timeout,
    Event.animationFrame, Event.keydown "ArrowRight",
    Event.animationFrame, Event.animationFrame, Event.animationFrame]

/-- The state after `staleRun`, from a new game on the two levels: the
cleanup of `lose()` is still to run. -/
def stalePending (paired : Bool) : Option Game :=
  (newGame (blockEnv [wideLevel, narrowLevel] paired)).bind (fun g =>
    run (blockEnv [wideLevel, narrowLevel] paired) g staleRun)

/-- A game in the middle of a level on `sampleTiles`: three moves made on
earlier levels and four on this one, the scoreboard showing a stale 99, one
activator recorded, and the block standing on the goal. -/
def midGame : Game :=
  { gameOn sampleTiles "y" [(2, 0)] with
    level := 2
    moves := 3
    movesThisLevel := 4
    scoreboard := 99
    activators := [sampleActivator] }

/-- An activator that lists the tile at row 2, column 1 twice. -/
def twiceActivator : Tile :=
  { type := "activator", isActivated := false, bridgeCoords := [(2, 1), (2, 1)] }

/-- The board `sampleTiles` with `twiceActivator` in place of its activator. -/
def twiceTiles : Tiles :=
  [ [plainTile "normal", plainTile "normal", plainTile "goal"],
    [plainTile "fragile", twiceActivator, plainTile "normal"],
    [plainTile "empty", plainTile "bridge", plainTile "normal"] ]

/-- An activator linked to row 2, column 7, which `sampleTiles` does not have. -/
def farActivator : Tile :=
  { type := "activator", isActivated := false, bridgeCoords := [(2, 7)] }

/-- The board `sampleTiles` with `farActivator` in place of its activator. -/
def farTiles : Tiles :=
  [ [plainTile "normal", plainTile "normal", plainTile "goal"],
    [plainTile "fragile", farActivator, plainTile "normal"],
    [plainTile "empty", plainTile "bridge", plainTile "normal"] ]

/-! ## Auxiliary definitions for the proofs -/

/-- A tile with its `isActivated` flag replaced. -/
def Tile.withFlag (t : Tile) (b : Bool) : Tile := { t with isActivated := b }

/-- The state that the `activator` case of `receiveMove` leaves, once the
linked flags have been flipped into `tiles`. -/
def afterActivator (g : Game) (tile : Tile) (tiles : Tiles) : Game :=
  { g with
    activators := g.activators ++ [tile]
    tiles := tiles
    checkNextCoord := if g.block.alignment = "y" then false else g.checkNextCoord }

/-- The state in which `updateScore()` starts its loop over `block.coords`:
the block has been rotated and moved into `pose` and the move counted. -/
def afterRoll (g : Game) (pose : Pose) : Game :=
  updateCounters { g with block := { g.block with pose := pose } } none

/-- The flag that the cleanup loop of `lose` leaves on the tile at `coord`
whose flag was `b`: `false` when one of the activators lists `coord`. -/
def resetFlag (activators : List Tile) (coord : Int × Int) (b : Bool) : Bool :=
  if activators.any (fun a => a.bridgeCoords.contains coord) then false else b

/-- Every lookup on the board succeeds, and the `bridgeCoords` of every
recorded activator are in bounds. -/
def Recorded (g : Game) : Prop :=
  WellLinked g.tiles ∧ ∀ a ∈ g.activators, InBounds g.tiles a.bridgeCoords

/-- What a stretch of play from `g` to `g'` carries along: pending timers
stay pending, recorded activators stay recorded unless `win()` was called,
and the boards stay well linked. -/
def Carries (g g' : Game) : Prop :=
  (∀ t ∈ g.timers, t ∈ g'.timers) ∧
    (Timer.startNextLevel ∉ g'.timers → ∀ a ∈ g.activators, a ∈ g'.activators) ∧
    (Recorded g → Recorded g')

/-- The pose keeps two entries in `coords`, equal when the block stands. -/
def Paired (pose : Pose) : Prop :=
  ∃ c1 c2, pose.coords = [c1, c2] ∧ (pose.alignment = "y" → c1 = c2)

/-- The block methods behind the arrow keys keep two entries in `coords`,
equal when the block stands: the block that the constructor comment of
game.js describes ("both occupied coordinates are equal"). -/
def PairedBlock (env : Env) : Prop :=
  ∀ key pose pose', Paired pose → rollBlock env key pose = some pose' → Paired pose'

/-! ## Lemmas on tile lookup and update -/

theorem tileAt_eq_some {tiles : Tiles} {row col : Int} {t : Tile}
    (h : tileAt tiles row col = some t) :
    0 ≤ row ∧ 0 ≤ col ∧ ∃ r, tiles[row.toNat]? = some r ∧ r[col.toNat]? = some t := by
  unfold tileAt at h
  split at h
  · simp at h
  · rename_i hneg
    push_neg at hneg
    refine ⟨hneg.1, hneg.2, ?_⟩
    split at h
    · simp at h
    · rename_i r hr
      exact ⟨r, hr, h⟩

theorem tileAt_updateFlag {f : Bool → Bool} {tiles tiles' : Tiles} {row col : Int}
    (h : updateFlag f tiles row col = some tiles') (row' col' : Int) :
    tileAt tiles' row' col' =
      (tileAt tiles row' col').map
        (fun t => if row' = row ∧ col' = col then t.withFlag (f t.isActivated) else t) := by
  unfold updateFlag at h
  split at h
  · simp at h
  · rename_i t ht
    obtain ⟨hr0, hc0, r, hr, hc⟩ := tileAt_eq_some ht
    simp only [Option.some.injEq] at h
    subst h
    have hgetD : tiles.getD row.toNat [] = r := by
      simp [List.getD, hr]
    rw [hgetD]
    unfold tileAt
    by_cases hneg : row' < 0 ∨ col' < 0
    · simp [hneg]
    · simp only [hneg, if_false]
      push_neg at hneg
      by_cases hrow : row' = row
      · subst hrow
        have hlt : row'.toNat < tiles.length := by
          rcases List.getElem?_eq_some.mp hr with ⟨hlt, _⟩
          exact hlt
        simp only [List.getElem?_set_self hlt, hr, true_and]
        by_cases hcol : col' = col
        · subst hcol
          have hclt : col'.toNat < r.length := by
            rcases List.getElem?_eq_some.mp hc with ⟨hclt, _⟩
            exact hclt
          simp [List.getElem?_set_self hclt, hc, Tile.withFlag]
        · have hne : col.toNat ≠ col'.toNat := by omega
          simp only [List.getElem?_set_ne hne, hcol, if_false]
          cases r[col'.toNat]? <;> simp
      · have hne : row.toNat ≠ row'.toNat := by omega
        simp only [List.getElem?_set_ne hne, hrow, false_and, if_false]
        cases hrow' : tiles[row'.toNat]? with
        | none => simp
        | some r' => cases r'[col'.toNat]? <;> simp

theorem updateFlag_isSome {f : Bool → Bool} {tiles : Tiles} {row col : Int}
    (h : (tileAt tiles row col).isSome) : (updateFlag f tiles row col).isSome := by
  unfold updateFlag
  cases hres : tileAt tiles row col with
  | none => simp [hres] at h
  | some t => simp

theorem tileAt_updateFlags {f : Bool → Bool} (coords : List (Int × Int)) :
    ∀ {tiles tiles' : Tiles}, updateFlags f tiles coords = some tiles' →
      ∀ row col : Int, tileAt tiles' row col =
        (tileAt tiles row col).map
          (fun t => t.withFlag (f^[coords.count (row, col)] t.isActivated)) := by
  induction coords with
  | nil =>
    intro tiles tiles' h row col
    simp only [updateFlags, Option.some.injEq] at h
    subst h
    cases tileAt tiles row col <;> simp [Tile.withFlag]
  | cons coord rest ih =>
    intro tiles tiles' h row col
    unfold updateFlags at h
    split at h
    · simp at h
    · rename_i tiles1 h1
      rw [ih h row col, tileAt_updateFlag h1 row col]
      cases tileAt tiles row col with
      | none => simp
      | some t =>
        by_cases heq : row = coord.1 ∧ col = coord.2
        · obtain ⟨cr, cc⟩ := coord
          obtain ⟨hr, hc⟩ := heq
          simp only at hr hc
          subst hr hc
          simp [Tile.withFlag, List.count_cons_self]
        · obtain ⟨cr, cc⟩ := coord
          have hb : ((cr, cc) == (row, col)) = false := by
            simp only [beq_eq_false_iff_ne, ne_eq, Prod.mk.injEq]
            intro hc
            exact heq ⟨hc.1.symm, hc.2.symm⟩
          simp only at heq
          simp [heq, Tile.withFlag, List.count_cons, hb]

theorem updateFlags_isSome (f : Bool → Bool) (coords : List (Int × Int)) :
    ∀ {tiles : Tiles}, (∀ coord ∈ coords, (tileAt tiles coord.1 coord.2).isSome) →
      (updateFlags f tiles coords).isSome := by
  induction coords with
  | nil => intro tiles _; simp [updateFlags]
  | cons coord rest ih =>
    intro tiles h
    have h0 : (updateFlag f tiles coord.1 coord.2).isSome :=
      updateFlag_isSome (h coord (List.mem_cons_self _ _))
    obtain ⟨tiles1, h1⟩ := Option.isSome_iff_exists.mp h0
    unfold updateFlags
    rw [h1]
    apply ih
    intro c hc
    rw [tileAt_updateFlag h1]
    have := h c (List.mem_cons_of_mem _ hc)
    cases hres : tileAt tiles c.1 c.2 with
    | none => simp [hres] at this
    | some t => simp

/-! ## Tile semantics of `receiveMove` -/

theorem timers_lose (env : Env) (g : Game) :
    (lose env g).timers = g.timers ++ [Timer.loseCleanup] := by
  unfold lose dropBlock unlistenKeydown listenKeydown
  simp only
  split <;> rfl

theorem timers_win (env : Env) (g : Game) :
    (win env g).timers = g.timers ++ [Timer.startNextLevel] := by
  unfold win dropBlock unlistenKeydown listenKeydown updateCounters
  simp only
  split <;> rfl

theorem timers_ne_append (l : List Timer) (t : Timer) : l ≠ l ++ [t] := by
  intro h
  have := congrArg List.length h
  simp at this

theorem receiveMove_skip (env : Env) (g : Game) (x z : Int)
    (hcheck : g.checkNextCoord = false) :
    receiveMove env g x z = some { g with checkNextCoord := true } := by
  simp [receiveMove, hcheck]

theorem receiveMove_activator (env : Env) (g : Game) (x z : Int) (tile : Tile)
    (hcheck : g.checkNextCoord = true)
    (htile : lookupTile g.tiles x z = some tile)
    (hact : tile.type = "activator") :
    receiveMove env g x z =
      (updateFlags (fun wasActivated => !wasActivated) g.tiles tile.bridgeCoords).map
        (afterActivator g tile) := by
  simp only [receiveMove, hcheck, htile, hact]
  simp only [Bool.true_eq_false, if_false]
  rw [if_neg (by decide), if_neg (by decide), if_neg (by decide), if_neg (by decide),
    if_pos trivial]
  cases updateFlags (fun wasActivated => !wasActivated) g.tiles tile.bridgeCoords with
  | none => rfl
  | some tiles =>
    simp only [Option.map_some', afterActivator, hcheck]
    split <;> rfl

/-- C1: on a goal tile, with `checkNextCoord` true, `receiveMove` completes
and calls `win()` exactly when `block.alignment` is `"y"`; under a block lying
flat the state is returned unchanged, so neither `win()` nor `lose()` ran. -/
theorem receiveMove_goal (env : Env) (g : Game) (x z : Int) (tile : Tile)
    (hcheck : g.checkNextCoord = true)
    (htile : lookupTile g.tiles x z = some tile)
    (hgoal : tile.type = "goal") :
    ∃ g', receiveMove env g x z = some g' ∧
      (winTriggered g g' ↔ g.block.alignment = "y") ∧
      (g.block.alignment = "y" → g' = win env g) ∧
      (g.block.alignment ≠ "y" →
        g' = g ∧ ¬ winTriggered g g' ∧ ¬ loseTriggered g g') := by
  by_cases hy : g.block.alignment = "y"
  · refine ⟨win env g, ?_, ?_, ?_, ?_⟩
    · simp [receiveMove, hcheck, htile, hgoal, hy]
    · simp [winTriggered, timers_win, hy]
    · intro _; rfl
    · intro h; exact absurd hy h
  · refine ⟨g, ?_, ?_, ?_, ?_⟩
    · simp [receiveMove, hcheck, htile, hgoal, hy]
    · simp [winTriggered, hy]
    · intro h; exact absurd h hy
    · intro _
      exact ⟨rfl, timers_ne_append _ _, timers_ne_append _ _⟩

theorem receiveMove_goal_witness :
    ∃ g', receiveMove idleEnv (gameOn sampleTiles "y" [(2, 0)]) 2 0 = some g' ∧
      (winTriggered (gameOn sampleTiles "y" [(2, 0)]) g' ↔
        (gameOn sampleTiles "y" [(2, 0)]).block.alignment = "y") ∧
      ((gameOn sampleTiles "y" [(2, 0)]).block.alignment = "y" →
        g' = win idleEnv (gameOn sampleTiles "y" [(2, 0)])) ∧
      ((gameOn sampleTiles "y" [(2, 0)]).block.alignment ≠ "y" →
        g' = gameOn sampleTiles "y" [(2, 0)] ∧
          ¬ winTriggered (gameOn sampleTiles "y" [(2, 0)]) g' ∧
          ¬ loseTriggered (gameOn sampleTiles "y" [(2, 0)]) g') :=
  receiveMove_goal idleEnv (gameOn sampleTiles "y" [(2, 0)]) 2 0 (plainTile "goal")
    rfl (by decide) (by decide)

/-- C8: with `checkNextCoord` true, `receiveMove` completes with a call of
`lose()` exactly when the resolved tile is empty, or a bridge that is not
activated, or fragile under an upright block; an activated bridge, and a
fragile tile under a flat block, return the state unchanged. -/
theorem receiveMove_lose_iff (env : Env) (g : Game) (x z : Int)
    (hcheck : g.checkNextCoord = true) :
    ((∃ g', receiveMove env g x z = some g' ∧ loseTriggered g g') ↔
      ∃ tile, lookupTile g.tiles x z = some tile ∧
        (tile.type = "empty" ∨ (tile.type = "bridge" ∧ tile.isActivated = false) ∨
          (tile.type = "fragile" ∧ g.block.alignment = "y"))) ∧
    (∀ tile, lookupTile g.tiles x z = some tile →
      (tile.type = "bridge" ∧ tile.isActivated = true) ∨
        (tile.type = "fragile" ∧ g.block.alignment ≠ "y") →
      receiveMove env g x z = some g) := by
  constructor
  · cases hl : lookupTile g.tiles x z with
    | none => simp [receiveMove, hcheck, hl]
    | some tile =>
      simp only [Option.some.injEq, exists_eq_left']
      by_cases h1 : tile.type = "normal"
      · simp [receiveMove, hcheck, hl, h1, loseTriggered]
      by_cases h2 : tile.type = "empty"
      · simp [receiveMove, hcheck, hl, h2, loseTriggered, timers_lose]
      by_cases h3 : tile.type = "goal"
      · by_cases hy : g.block.alignment = "y"
        · simp [receiveMove, hcheck, hl, h3, hy, loseTriggered, timers_win]
        · simp [receiveMove, hcheck, hl, h3, hy, loseTriggered]
      by_cases h4 : tile.type = "bridge"
      · cases ha : tile.isActivated
        · simp [receiveMove, hcheck, hl, h4, ha, loseTriggered, timers_lose]
        · simp [receiveMove, hcheck, hl, h4, ha, loseTriggered]
      by_cases h5 : tile.type = "activator"
      · rw [receiveMove_activator env g x z tile hcheck hl h5]
        cases updateFlags (fun wasActivated => !wasActivated) g.tiles tile.bridgeCoords with
        | none => simp [h5]
        | some tiles => simp [h5, loseTriggered, afterActivator]
      by_cases h6 : tile.type = "fragile"
      · by_cases hy : g.block.alignment = "y"
        · simp [receiveMove, hcheck, hl, h6, hy, loseTriggered, timers_lose]
        · simp [receiveMove, hcheck, hl, h6, hy, loseTriggered]
      · simp [receiveMove, hcheck, hl, h1, h2, h3, h4, h5, h6, loseTriggered]
  · intro tile hl h
    rcases h with ⟨hb, ha⟩ | ⟨hf, hy⟩
    · simp [receiveMove, hcheck, hl, hb, ha]
    · simp [receiveMove, hcheck, hl, hf, hy]

theorem receiveMove_lose_iff_witness :
    (gameOn sampleTiles "y" [(0, 2)]).checkNextCoord = true ∧
      ∃ g', receiveMove idleEnv (gameOn sampleTiles "y" [(0, 2)]) 0 2 = some g' ∧
        loseTriggered (gameOn sampleTiles "y" [(0, 2)]) g' :=
  ⟨rfl, (receiveMove_lose_iff idleEnv (gameOn sampleTiles "y" [(0, 2)]) 0 2 rfl).1.2
    ⟨plainTile "empty", by decide, Or.inl (by decide)⟩⟩

theorem receiveMove_isSome (env : Env) (g : Game) (x z : Int) (tile : Tile)
    (htile : lookupTile g.tiles x z = some tile)
    (hlinks : tile.type = "activator" → InBounds g.tiles tile.bridgeCoords) :
    (receiveMove env g x z).isSome := by
  cases hcheck : g.checkNextCoord with
  | false => simp [receiveMove_skip env g x z hcheck]
  | true =>
    by_cases h5 : tile.type = "activator"
    · rw [receiveMove_activator env g x z tile hcheck htile h5]
      have := updateFlags_isSome (fun wasActivated => !wasActivated) tile.bridgeCoords
        (hlinks h5)
      obtain ⟨tiles, ht⟩ := Option.isSome_iff_exists.mp this
      simp [ht]
    · simp only [receiveMove, hcheck, htile, h5]
      simp only [Bool.true_eq_false, if_false]
      repeat' split
      all_goals simp

theorem lookupTile_fallback (tiles : Tiles) (x z : Int) (hmiss : tileAt tiles z x = none) :
    lookupTile tiles x z = lookupTile tiles 1 1 := by
  unfold lookupTile
  rw [hmiss]
  cases tileAt tiles 1 1 <;> rfl

/-- C9 (amended): for coordinates with no tile at row `z`, column `x`,
`receiveMove(x, z)` is `receiveMove(1, 1)` on every board, and it completes
without error on every board that has a tile at row 1, column 1 whose
`bridgeCoords`, if it is an activator, are in bounds. -/
theorem receiveMove_fallback (env : Env) (g : Game) (x z : Int)
    (hmiss : tileAt g.tiles z x = none) :
    receiveMove env g x z = receiveMove env g 1 1 ∧
      (∀ tile, tileAt g.tiles 1 1 = some tile →
        (tile.type = "activator" → InBounds g.tiles tile.bridgeCoords) →
        (receiveMove env g x z).isSome) := by
  have hl := lookupTile_fallback g.tiles x z hmiss
  constructor
  · unfold receiveMove
    rw [hl]
  · intro tile h11 hlinks
    apply receiveMove_isSome env g x z tile _ hlinks
    unfold lookupTile
    rw [hmiss, h11]

theorem receiveMove_fallback_witness :
    tileAt (gameOn sampleTiles "x" [(7, -1), (8, -1)]).tiles (-1) 7 = none ∧
      receiveMove idleEnv (gameOn sampleTiles "x" [(7, -1), (8, -1)]) 7 (-1) =
        receiveMove idleEnv (gameOn sampleTiles "x" [(7, -1), (8, -1)]) 1 1 ∧
      (receiveMove idleEnv (gameOn sampleTiles "x" [(7, -1), (8, -1)]) 7 (-1)).isSome :=
  ⟨by decide,
    (receiveMove_fallback idleEnv (gameOn sampleTiles "x" [(7, -1), (8, -1)]) 7 (-1)
      (by decide)).1,
    (receiveMove_fallback idleEnv (gameOn sampleTiles "x" [(7, -1), (8, -1)]) 7 (-1)
      (by decide)).2 sampleActivator (by decide) (fun _ => by decide)⟩

/-- C9, as stated, fails: on a board of a single tile there is no tile at
row 1, column 1, and `receiveMove(5, 5)` throws instead of completing. -/
theorem receiveMove_fallback_throws :
    tileAt (gameOn [[plainTile "normal"]] "y" [(5, 5)]).tiles 5 5 = none ∧
      (gameOn [[plainTile "normal"]] "y" [(5, 5)]).checkNextCoord = true ∧
      receiveMove idleEnv (gameOn [[plainTile "normal"]] "y" [(5, 5)]) 5 5 = none := by
  decide

/-! ## Activators flip the linked flags -/

theorem flip_iterate_twice (n : Nat) (b : Bool) :
    (fun wasActivated : Bool => !wasActivated)^[n]
      ((fun wasActivated : Bool => !wasActivated)^[n] b) = b := by
  induction n generalizing b with
  | zero => rfl
  | succ n ih =>
    rw [Function.iterate_succ_apply', Function.iterate_succ_apply, ih]
    simp

theorem InBounds_updateFlags {f : Bool → Bool} {tiles tiles' : Tiles}
    {coords : List (Int × Int)} (h : updateFlags f tiles coords = some tiles')
    (others : List (Int × Int)) (hin : InBounds tiles others) : InBounds tiles' others := by
  intro c hc
  rw [tileAt_updateFlags coords h]
  have := hin c hc
  cases hres : tileAt tiles c.1 c.2 with
  | none => simp [hres] at this
  | some t => simp

theorem lookupTile_updateFlags {f : Bool → Bool} {tiles tiles' : Tiles}
    {coords : List (Int × Int)} (h : updateFlags f tiles coords = some tiles')
    {x z : Int} {tile : Tile} (htile : lookupTile tiles x z = some tile) :
    ∃ b, lookupTile tiles' x z = some (tile.withFlag b) := by
  unfold lookupTile at htile ⊢
  rw [tileAt_updateFlags coords h z x, tileAt_updateFlags coords h 1 1]
  cases hzx : tileAt tiles z x with
  | some t =>
    rw [hzx] at htile
    simp only [Option.some.injEq] at htile
    subst htile
    exact ⟨_, rfl⟩
  | none =>
    rw [hzx] at htile
    simp only at htile
    rw [htile]
    exact ⟨_, rfl⟩

/-- C3: evaluating an activator whose `bridgeCoords` are in bounds twice,
`checkNextCoord` being true at each evaluation, completes both times and
leaves every tile of the board, its `isActivated` flag included, as it was
before the first evaluation. -/
theorem activator_twice_restores (env : Env) (g : Game) (x z : Int) (tile : Tile)
    (hcheck : g.checkNextCoord = true)
    (htile : lookupTile g.tiles x z = some tile)
    (hact : tile.type = "activator")
    (hlinks : InBounds g.tiles tile.bridgeCoords) :
    ∃ g1 g2, receiveMove env g x z = some g1 ∧
      receiveMove env { g1 with checkNextCoord := true } x z = some g2 ∧
      ∀ row col : Int, tileAt g2.tiles row col = tileAt g.tiles row col := by
  obtain ⟨tiles1, h1⟩ := Option.isSome_iff_exists.mp
    (updateFlags_isSome (fun wasActivated => !wasActivated) tile.bridgeCoords hlinks)
  obtain ⟨b, hb⟩ := lookupTile_updateFlags h1 htile
  have hlinks1 : InBounds tiles1 tile.bridgeCoords :=
    InBounds_updateFlags h1 tile.bridgeCoords hlinks
  obtain ⟨tiles2, h2⟩ := Option.isSome_iff_exists.mp
    (updateFlags_isSome (fun wasActivated => !wasActivated) tile.bridgeCoords hlinks1)
  refine ⟨afterActivator g tile tiles1,
    afterActivator { afterActivator g tile tiles1 with checkNextCoord := true }
      (tile.withFlag b) tiles2, ?_, ?_, ?_⟩
  · rw [receiveMove_activator env g x z tile hcheck htile hact, h1]
    rfl
  · rw [receiveMove_activator env _ x z (tile.withFlag b) rfl hb hact]
    show Option.map _ (updateFlags _ tiles1 tile.bridgeCoords) = _
    rw [h2]
    rfl
  · intro row col
    show tileAt tiles2 row col = tileAt g.tiles row col
    rw [tileAt_updateFlags _ h2, tileAt_updateFlags _ h1]
    cases tileAt g.tiles row col with
    | none => rfl
    | some t => simp [Tile.withFlag, flip_iterate_twice]

theorem activator_twice_restores_witness :
    (gameOn sampleTiles "x" [(1, 1), (2, 1)]).checkNextCoord = true ∧
      InBounds (gameOn sampleTiles "x" [(1, 1), (2, 1)]).tiles sampleActivator.bridgeCoords ∧
      ∃ g1 g2, receiveMove idleEnv (gameOn sampleTiles "x" [(1, 1), (2, 1)]) 1 1 = some g1 ∧
        receiveMove idleEnv { g1 with checkNextCoord := true } 1 1 = some g2 ∧
        ∀ row col : Int, tileAt g2.tiles row col =
          tileAt (gameOn sampleTiles "x" [(1, 1), (2, 1)]).tiles row col :=
  ⟨rfl, by decide,
    activator_twice_restores idleEnv (gameOn sampleTiles "x" [(1, 1), (2, 1)]) 1 1
      sampleActivator rfl (by decide) (by decide) (by decide)⟩

/-! ## Frame lemmas for `win`, `lose` and `receiveMove` -/

theorem lose_fields (env : Env) (g : Game) :
    (lose env g).level = g.level ∧ (lose env g).moves = g.moves ∧
      (lose env g).movesThisLevel = g.movesThisLevel ∧
      (lose env g).scoreboard = g.scoreboard ∧
      (lose env g).tiles = g.tiles ∧ (lose env g).activators = g.activators ∧
      (lose env g).checkNextCoord = false ∧
      (lose env g).block.initialPos = g.block.initialPos ∧
      (lose env g).modalDisplay = g.modalDisplay := by
  unfold lose dropBlock unlistenKeydown listenKeydown
  simp only
  split <;> simp

theorem win_fields (env : Env) (g : Game) :
    (win env g).level = g.level ∧ (win env g).moves = g.moves + g.movesThisLevel ∧
      (win env g).movesThisLevel = 0 ∧
      (win env g).scoreboard = g.moves + g.movesThisLevel ∧
      (win env g).tiles = g.tiles ∧ (win env g).activators = [] ∧
      (win env g).checkNextCoord = false ∧
      (win env g).block.initialPos = g.block.initialPos ∧
      (win env g).modalDisplay = g.modalDisplay := by
  unfold win dropBlock unlistenKeydown listenKeydown updateCounters
  simp only
  split <;> simp

/-- The five ways a call of `receiveMove` can complete. -/
theorem receiveMove_cases {env : Env} {g g' : Game} {x z : Int}
    (h : receiveMove env g x z = some g') :
    (g.checkNextCoord = false ∧ g' = { g with checkNextCoord := true }) ∨
      (g.checkNextCoord = true ∧
        (g' = g ∨ g' = lose env g ∨ (g' = win env g ∧ g.block.alignment = "y") ∨
          ∃ tile tiles, lookupTile g.tiles x z = some tile ∧ tile.type = "activator" ∧
            updateFlags (fun wasActivated => !wasActivated) g.tiles tile.bridgeCoords =
              some tiles ∧
            g' = afterActivator g tile tiles)) := by
  cases hcheck : g.checkNextCoord with
  | false =>
    left
    rw [receiveMove_skip env g x z hcheck] at h
    simp only [Option.some.injEq] at h
    exact ⟨rfl, h.symm⟩
  | true =>
    right
    refine ⟨rfl, ?_⟩
    cases hl : lookupTile g.tiles x z with
    | none => simp [receiveMove, hcheck, hl] at h
    | some tile =>
      by_cases h5 : tile.type = "activator"
      · rw [receiveMove_activator env g x z tile hcheck hl h5] at h
        cases hu : updateFlags (fun wasActivated => !wasActivated) g.tiles tile.bridgeCoords with
        | none => simp [hu] at h
        | some tiles =>
          simp only [hu, Option.map_some', Option.some.injEq] at h
          exact Or.inr (Or.inr (Or.inr ⟨tile, tiles, rfl, h5, hu, h.symm⟩))
      · simp only [receiveMove, hcheck, hl, h5] at h
        simp only [Bool.true_eq_false, if_false] at h
        repeat' split at h
        all_goals simp only [Option.some.injEq] at h
        all_goals subst h
        all_goals simp [*]

/-! ## Boards on which every lookup succeeds -/

theorem tileAt_mem {tiles : Tiles} {row col : Int} {t : Tile}
    (h : tileAt tiles row col = some t) : ∃ r ∈ tiles, t ∈ r := by
  obtain ⟨_, _, r, hr, ht⟩ := tileAt_eq_some h
  exact ⟨r, List.getElem?_mem hr, List.getElem?_mem ht⟩

theorem mem_tileAt {tiles : Tiles} {r : List Tile} {t : Tile}
    (hr : r ∈ tiles) (ht : t ∈ r) : ∃ row col : Int, tileAt tiles row col = some t := by
  obtain ⟨i, hi, hri⟩ := List.getElem_of_mem hr
  obtain ⟨j, hj, htj⟩ := List.getElem_of_mem ht
  refine ⟨(i : Int), (j : Int), ?_⟩
  unfold tileAt
  have h1 : ¬ ((i : Int) < 0 ∨ (j : Int) < 0) := by omega
  simp only [h1, if_false, Int.toNat_ofNat]
  rw [List.getElem?_eq_getElem hi, hri]
  simp only
  rw [List.getElem?_eq_getElem hj, htj]

theorem WellLinked.inBounds {tiles : Tiles} (h : WellLinked tiles) {row col : Int} {t : Tile}
    (ht : tileAt tiles row col = some t) : InBounds tiles t.bridgeCoords := by
  obtain ⟨r, hr, htr⟩ := tileAt_mem ht
  exact h.2 r hr t htr

theorem WellLinked.lookup {tiles : Tiles} (h : WellLinked tiles) (x z : Int) :
    ∃ tile, lookupTile tiles x z = some tile ∧ InBounds tiles tile.bridgeCoords := by
  unfold lookupTile
  cases hzx : tileAt tiles z x with
  | some t => exact ⟨t, rfl, h.inBounds hzx⟩
  | none =>
    obtain ⟨t, ht⟩ := Option.isSome_iff_exists.mp h.1
    exact ⟨t, ht, h.inBounds ht⟩

theorem WellLinked.updateFlags {f : Bool → Bool} {tiles tiles' : Tiles}
    {coords : List (Int × Int)} (h : WellLinked tiles)
    (hu : Bloxy.updateFlags f tiles coords = some tiles') : WellLinked tiles' := by
  constructor
  · rw [tileAt_updateFlags coords hu]
    obtain ⟨t, ht⟩ := Option.isSome_iff_exists.mp h.1
    simp [ht]
  · intro r hr t ht
    obtain ⟨row, col, hrc⟩ := mem_tileAt hr ht
    rw [tileAt_updateFlags coords hu] at hrc
    cases h0 : tileAt tiles row col with
    | none => simp [h0] at hrc
    | some t0 =>
      simp only [h0, Option.map_some', Option.some.injEq] at hrc
      subst hrc
      have hin : InBounds tiles t0.bridgeCoords := h.inBounds h0
      exact InBounds_updateFlags hu _ hin

theorem receiveMove_tiles {env : Env} {g g' : Game} {x z : Int}
    (h : receiveMove env g x z = some g') :
    g'.tiles = g.tiles ∨
      ∃ coords, updateFlags (fun wasActivated => !wasActivated) g.tiles coords = some g'.tiles := by
  rcases receiveMove_cases h with
    ⟨_, rfl⟩ | ⟨_, rfl | rfl | ⟨rfl, _⟩ | ⟨tile, tiles, _, _, hu, rfl⟩⟩
  · exact Or.inl rfl
  · exact Or.inl rfl
  · exact Or.inl (lose_fields env g).2.2.2.2.1
  · exact Or.inl (win_fields env g).2.2.2.2.1
  · exact Or.inr ⟨tile.bridgeCoords, hu⟩

theorem WellLinked.receiveMove (env : Env) {g : Game} (h : WellLinked g.tiles) (x z : Int) :
    ∃ g', Bloxy.receiveMove env g x z = some g' ∧ WellLinked g'.tiles := by
  obtain ⟨tile, htile, hin⟩ := h.lookup x z
  obtain ⟨g', hg'⟩ := Option.isSome_iff_exists.mp
    (receiveMove_isSome env g x z tile htile (fun _ => hin))
  refine ⟨g', hg', ?_⟩
  rcases receiveMove_tiles hg' with ht | ⟨coords, hu⟩
  · rw [ht]; exact h
  · exact h.updateFlags hu

theorem WellLinked.receiveMoves (env : Env) (coords : List (Int × Int)) :
    ∀ {g : Game}, WellLinked g.tiles →
      ∃ g', Bloxy.receiveMoves env g coords = some g' ∧ WellLinked g'.tiles := by
  induction coords with
  | nil => intro g h; exact ⟨g, rfl, h⟩
  | cons coord rest ih =>
    intro g h
    obtain ⟨g1, h1, hl1⟩ := WellLinked.receiveMove env h coord.1 coord.2
    obtain ⟨g', h', hl'⟩ := ih hl1
    refine ⟨g', ?_, hl'⟩
    unfold Bloxy.receiveMoves
    rw [h1]
    exact h'

/-! ## One accepted move -/

theorem handleKeydown_arrow (env : Env) (g : Game) {key : String}
    (hkey : key ∈ KEYDOWN_EVENTS) :
    ∃ pose, rollBlock env key g.block.pose = some pose ∧
      handleKeydown env g key = receiveMoves env (afterRoll g pose) pose.coords := by
  simp only [KEYDOWN_EVENTS, List.mem_cons, List.mem_singleton, List.not_mem_nil,
    or_false] at hkey
  rcases hkey with rfl | rfl | rfl | rfl
  · exact ⟨_, rfl, rfl⟩
  · exact ⟨_, rfl, rfl⟩
  · exact ⟨_, rfl, rfl⟩
  · exact ⟨_, rfl, rfl⟩

theorem receiveMove_timers {env : Env} {g g' : Game} {x z : Int}
    (h : receiveMove env g x z = some g') :
    g'.timers = g.timers ∨ winTriggered g g' ∨ loseTriggered g g' := by
  rcases receiveMove_cases h with
    ⟨_, rfl⟩ | ⟨_, rfl | rfl | ⟨rfl, _⟩ | ⟨tile, tiles, _, _, hu, rfl⟩⟩
  · exact Or.inl rfl
  · exact Or.inl rfl
  · exact Or.inr (Or.inr (timers_lose env g))
  · exact Or.inr (Or.inl (timers_win env g))
  · exact Or.inl rfl

theorem receiveMove_timers_length {env : Env} {g g' : Game} {x z : Int}
    (h : receiveMove env g x z = some g') : g.timers.length ≤ g'.timers.length := by
  rcases receiveMove_timers h with h | h | h
  · rw [h]
  · rw [h]; simp
  · rw [h]; simp

theorem receiveMove_quiet {env : Env} {g g' : Game} {x z : Int}
    (h : receiveMove env g x z = some g') (hlen : g'.timers.length ≤ g.timers.length) :
    g'.timers = g.timers ∧ g'.moves = g.moves ∧ g'.movesThisLevel = g.movesThisLevel ∧
      g'.scoreboard = g.scoreboard := by
  rcases receiveMove_cases h with
    ⟨_, rfl⟩ | ⟨_, rfl | rfl | ⟨rfl, _⟩ | ⟨tile, tiles, _, _, hu, rfl⟩⟩
  · exact ⟨rfl, rfl, rfl, rfl⟩
  · exact ⟨rfl, rfl, rfl, rfl⟩
  · rw [timers_lose] at hlen; simp at hlen
  · rw [timers_win] at hlen; simp at hlen
  · exact ⟨rfl, rfl, rfl, rfl⟩

theorem receiveMoves_timers_length {env : Env} (coords : List (Int × Int)) :
    ∀ {g g' : Game}, receiveMoves env g coords = some g' →
      g.timers.length ≤ g'.timers.length := by
  induction coords with
  | nil =>
    intro g g' h
    simp only [receiveMoves, Option.some.injEq] at h
    rw [h]
  | cons coord rest ih =>
    intro g g' h
    unfold receiveMoves at h
    split at h
    · simp at h
    · rename_i g1 h1
      exact le_trans (receiveMove_timers_length h1) (ih h)

theorem receiveMoves_quiet {env : Env} (coords : List (Int × Int)) :
    ∀ {g g' : Game}, receiveMoves env g coords = some g' →
      g'.timers.length ≤ g.timers.length →
      g'.timers = g.timers ∧ g'.moves = g.moves ∧ g'.movesThisLevel = g.movesThisLevel ∧
        g'.scoreboard = g.scoreboard := by
  induction coords with
  | nil =>
    intro g g' h _
    simp only [receiveMoves, Option.some.injEq] at h
    subst h
    exact ⟨rfl, rfl, rfl, rfl⟩
  | cons coord rest ih =>
    intro g g' h hlen
    unfold receiveMoves at h
    split at h
    · simp at h
    · rename_i g1 h1
      have hrest := receiveMoves_timers_length rest h
      have hfirst := receiveMove_timers_length h1
      obtain ⟨e1, e2, e3, e4⟩ := receiveMove_quiet h1 (by omega)
      obtain ⟨f1, f2, f3, f4⟩ := ih h (by omega)
      exact ⟨f1.trans e1, f2.trans e2, f3.trans e3, f4.trans e4⟩

/-- C10: for an accepted arrow key, whenever `handleKeydown` completes
without triggering `win()` or `lose()` (no timer was set), `movesThisLevel` is
its old value plus 1, whatever the number of entries of `block.coords`,
`moves` is unchanged and the scoreboard shows `moves + movesThisLevel`; and
on a board where every lookup succeeds `handleKeydown` does complete. -/
theorem handleKeydown_counts_once (env : Env) (g : Game) (key : String)
    (hkey : key ∈ KEYDOWN_EVENTS) :
    (∀ g', handleKeydown env g key = some g' → g'.timers = g.timers →
      g'.movesThisLevel = g.movesThisLevel + 1 ∧ g'.moves = g.moves ∧
        g'.scoreboard = g.moves + (g.movesThisLevel + 1)) ∧
    (WellLinked g.tiles → ∃ g', handleKeydown env g key = some g') := by
  obtain ⟨pose, _, hmove⟩ := handleKeydown_arrow env g hkey
  constructor
  · intro g' hg' hquiet
    rw [hmove] at hg'
    have hlen : g'.timers.length ≤ (afterRoll g pose).timers.length := by
      rw [hquiet]; exact le_refl _
    obtain ⟨_, h2, h3, h4⟩ := receiveMoves_quiet pose.coords hg' hlen
    exact ⟨h3, h2, h4⟩
  · intro hlinked
    have hl : WellLinked (afterRoll g pose).tiles := hlinked
    obtain ⟨g', hg', _⟩ := WellLinked.receiveMoves env pose.coords hl
    exact ⟨g', hmove.trans hg'⟩

theorem handleKeydown_counts_once_witness :
    "ArrowRight" ∈ KEYDOWN_EVENTS ∧
      (handleKeydown rollingEnv (gameOn sampleTiles "y" [(0, 0)]) "ArrowRight").map
          (fun g => (g.block.coords, g.timers, g.movesThisLevel, g.moves, g.scoreboard)) =
        some ([(1, 0), (2, 0)], [], 1, 0, 1) ∧
      (∀ g', handleKeydown rollingEnv (gameOn sampleTiles "y" [(0, 0)]) "ArrowRight" = some g' →
        g'.timers = (gameOn sampleTiles "y" [(0, 0)]).timers →
        g'.movesThisLevel = (gameOn sampleTiles "y" [(0, 0)]).movesThisLevel + 1 ∧
          g'.moves = (gameOn sampleTiles "y" [(0, 0)]).moves ∧
          g'.scoreboard = (gameOn sampleTiles "y" [(0, 0)]).moves +
            ((gameOn sampleTiles "y" [(0, 0)]).movesThisLevel + 1)) :=
  ⟨by decide, by decide,
    (handleKeydown_counts_once rollingEnv (gameOn sampleTiles "y" [(0, 0)]) "ArrowRight"
      (by decide)).1⟩

/-! ## Level transitions -/

theorem dropBlock_fields (env : Env) (g : Game) (targetHeight : Int) :
    (dropBlock env g targetHeight).level = g.level ∧
      (dropBlock env g targetHeight).moves = g.moves ∧
      (dropBlock env g targetHeight).movesThisLevel = g.movesThisLevel ∧
      (dropBlock env g targetHeight).scoreboard = g.scoreboard ∧
      (dropBlock env g targetHeight).tiles = g.tiles ∧
      (dropBlock env g targetHeight).activators = g.activators ∧
      (dropBlock env g targetHeight).checkNextCoord = g.checkNextCoord ∧
      (dropBlock env g targetHeight).block.initialPos = g.block.initialPos ∧
      (dropBlock env g targetHeight).modalDisplay = g.modalDisplay ∧
      (dropBlock env g targetHeight).timers = g.timers := by
  unfold dropBlock listenKeydown
  split <;> simp

theorem receiveMove_level {env : Env} {g g' : Game} {x z : Int}
    (h : receiveMove env g x z = some g') : g'.level = g.level := by
  rcases receiveMove_cases h with
    ⟨_, rfl⟩ | ⟨_, rfl | rfl | ⟨rfl, _⟩ | ⟨tile, tiles, _, _, hu, rfl⟩⟩
  · rfl
  · rfl
  · exact (lose_fields env g).1
  · exact (win_fields env g).1
  · rfl

theorem receiveMoves_level {env : Env} (coords : List (Int × Int)) :
    ∀ {g g' : Game}, receiveMoves env g coords = some g' → g'.level = g.level := by
  induction coords with
  | nil =>
    intro g g' h
    simp only [receiveMoves, Option.some.injEq] at h
    rw [h]
  | cons coord rest ih =>
    intro g g' h
    unfold receiveMoves at h
    split at h
    · simp at h
    · rename_i g1 h1
      rw [ih h, receiveMove_level h1]

theorem handleKeydown_other (env : Env) (g : Game) {key : String}
    (hkey : key ∉ KEYDOWN_EVENTS) : handleKeydown env g key = some g := by
  simp only [KEYDOWN_EVENTS, List.mem_cons, List.mem_singleton, List.not_mem_nil,
    or_false, not_or] at hkey
  obtain ⟨h1, h2, h3, h4⟩ := hkey
  simp [handleKeydown, rollBlock, h1, h2, h3, h4]

theorem handleKeydown_level {env : Env} {g g' : Game} {key : String}
    (h : handleKeydown env g key = some g') : g'.level = g.level := by
  by_cases hkey : key ∈ KEYDOWN_EVENTS
  · obtain ⟨pose, _, hmove⟩ := handleKeydown_arrow env g hkey
    rw [hmove] at h
    exact (receiveMoves_level pose.coords h).trans rfl
  · rw [handleKeydown_other env g hkey] at h
    simp only [Option.some.injEq] at h
    rw [← h]

theorem loseCleanup_fields {env : Env} {g g' : Game} (h : loseCleanup env g = some g') :
    g'.level = g.level ∧ g'.moves = g.moves ∧ g'.movesThisLevel = 0 ∧
      g'.scoreboard = g.moves ∧ g'.checkNextCoord = true ∧
      g'.activators = g.activators ∧ g'.timers = g.timers ∧
      resetBridges g.tiles g.activators = some g'.tiles := by
  unfold loseCleanup updateCounters at h
  simp only at h
  split at h
  · simp at h
  · rename_i tiles ht
    simp only [Option.some.injEq] at h
    subst h
    simp [ht]

theorem startNextLevel_fields {env : Env} {g g' : Game} (h : startNextLevel env g = some g') :
    g'.level = g.level + 1 ∧ g'.checkNextCoord = true ∧ g'.moves = g.moves ∧
      g'.movesThisLevel = g.movesThisLevel ∧ g'.scoreboard = g.scoreboard ∧
      g'.activators = g.activators ∧ g'.timers = g.timers ∧
      (g'.level = 6 →
        g'.modalDisplay = "flex" ∧ g'.block = g.block ∧ g'.tiles = g.tiles) ∧
      (g'.level ≠ 6 →
        ∃ lvl, levelAt env g'.level = some lvl ∧
          g'.block.initialPos = lvl.startPosition ∧
          g'.tiles = env.createTiles lvl.board ∧
          g'.modalDisplay = g.modalDisplay) := by
  unfold startNextLevel at h
  simp only at h
  split at h
  · rename_i h6
    simp only [Option.some.injEq] at h
    subst h
    simp [h6]
  · rename_i h6
    split at h
    · simp at h
    · rename_i lvl hlvl
      unfold renderLevel at h
      simp only [hlvl, Option.some.injEq] at h
      subst h
      have hd := dropBlock_fields env
        { level := g.level + 1, moves := g.moves, movesThisLevel := g.movesThisLevel,
          scoreboard := g.scoreboard, modalDisplay := g.modalDisplay, checkNextCoord := true,
          tiles := env.createTiles lvl.board,
          block :=
            { initialPos := lvl.startPosition,
              pose := env.startLevel lvl.startPosition g.block.pose },
          activators := g.activators, listening := g.listening, frames := g.frames,
          timers := g.timers } 140
      obtain ⟨d1, d2, d3, d4, d5, d6, d7, d8, d9, d10⟩ := hd
      refine ⟨d1, d7, d2, d3, d4, d6, d10, ?_, ?_⟩
      · intro h6'
        rw [d1] at h6'
        exact absurd h6' h6
      · intro _
        refine ⟨lvl, ?_, d8, d5, d9⟩
        rw [d1]
        exact hlvl

theorem startNextLevel_isSome (env : Env) (g : Game)
    (hnext : g.level + 1 = 6 ∨ (levelAt env (g.level + 1)).isSome) :
    (startNextLevel env g).isSome := by
  unfold startNextLevel
  simp only
  by_cases h6 : g.level + 1 = 6
  · simp [h6]
  · rcases hnext with h | h
    · exact absurd h h6
    · obtain ⟨lvl, hlvl⟩ := Option.isSome_iff_exists.mp h
      simp [h6, hlvl, renderLevel]

theorem run_frames (env : Env) (n : Nat) :
    ∀ g : Game, ∃ g', run env g (List.replicate n Event.animationFrame) = some g' ∧
      g'.level = g.level ∧ g'.moves = g.moves ∧ g'.movesThisLevel = g.movesThisLevel ∧
      g'.activators = g.activators := by
  induction n with
  | zero => intro g; exact ⟨g, rfl, rfl, rfl, rfl, rfl⟩
  | succ n ih =>
    intro g
    cases hf : g.frames with
    | nil =>
      obtain ⟨g', hg', h1, h2, h3, h4⟩ := ih g
      refine ⟨g', ?_, h1, h2, h3, h4⟩
      simp only [List.replicate_succ, run, dispatch, hf]
      exact hg'
    | cons targetHeight rest =>
      obtain ⟨g', hg', h1, h2, h3, h4⟩ :=
        ih (dropBlock env { g with frames := rest } targetHeight)
      have hd := dropBlock_fields env { g with frames := rest } targetHeight
      refine ⟨g', ?_, h1.trans hd.1, h2.trans hd.2.1, h3.trans hd.2.2.1,
        h4.trans hd.2.2.2.2.2.1⟩
      simp only [List.replicate_succ, run, dispatch, hf]
      exact hg'

/-- C6: `win()` adds `movesThisLevel` to `moves`, sets `movesThisLevel` to 0
and empties `activators`; after `win()`, any number of animation frames of
the drop-out and the deferred `startNextLevel()` (which completes when the
next level is the terminal index 6 or exists in `LEVELS`), `moves` is the old
`moves + movesThisLevel`, `movesThisLevel` is 0 and `activators` is empty, so
the sum of the two counters is unchanged; and `startNextLevel` changes
neither counter, from any state. -/
theorem win_folds_counter_once (env : Env) (g : Game) (frames : Nat)
    (hnext : g.level + 1 = 6 ∨ (levelAt env (g.level + 1)).isSome) :
    ((win env g).moves = g.moves + g.movesThisLevel ∧ (win env g).movesThisLevel = 0 ∧
      (win env g).activators = []) ∧
    (∃ gm g', run env (win env g) (List.replicate frames Event.animationFrame) = some gm ∧
      startNextLevel env gm = some g' ∧
      g'.moves = g.moves + g.movesThisLevel ∧ g'.movesThisLevel = 0 ∧
      g'.activators = [] ∧
      g'.moves + g'.movesThisLevel = g.moves + g.movesThisLevel) ∧
    (∀ h h', startNextLevel env h = some h' →
      h'.moves = h.moves ∧ h'.movesThisLevel = h.movesThisLevel) := by
  have hw := win_fields env g
  refine ⟨⟨hw.2.1, hw.2.2.1, hw.2.2.2.2.2.1⟩, ?_, ?_⟩
  · obtain ⟨gm, hgm, m1, m2, m3, m4⟩ := run_frames env frames (win env g)
    have hsome : (startNextLevel env gm).isSome := by
      apply startNextLevel_isSome
      rw [m1, hw.1]
      exact hnext
    obtain ⟨g', hg'⟩ := Option.isSome_iff_exists.mp hsome
    have hs := startNextLevel_fields hg'
    refine ⟨gm, g', hgm, hg', ?_, ?_, ?_, ?_⟩
    · rw [hs.2.2.1, m2, hw.2.1]
    · rw [hs.2.2.2.1, m3, hw.2.2.1]
    · rw [hs.2.2.2.2.2.1, m4, hw.2.2.2.2.2.1]
    · rw [hs.2.2.1, hs.2.2.2.1, m2, m3, hw.2.1, hw.2.2.1]
      rfl
  · intro h h' hh
    have hs := startNextLevel_fields hh
    exact ⟨hs.2.2.1, hs.2.2.2.1⟩

theorem win_folds_counter_once_witness :
    (midGame.level + 1 = 6 ∨ (levelAt rollingEnv (midGame.level + 1)).isSome) ∧
      (midGame.moves, midGame.movesThisLevel, midGame.activators) =
        (3, 4, [sampleActivator]) ∧
      ((win rollingEnv midGame).moves, (win rollingEnv midGame).movesThisLevel,
          (win rollingEnv midGame).activators) = (7, 0, []) ∧
      ((run rollingEnv (win rollingEnv midGame)
          (List.replicate 2 Event.animationFrame)).bind (startNextLevel rollingEnv)).map
          (fun g => (g.level, g.moves, g.movesThisLevel, g.activators)) =
        some (3, 7, 0, []) ∧
      (startNextLevel rollingEnv midGame).map (fun g => (g.moves, g.movesThisLevel)) =
        some (3, 4) ∧
      ∃ gm g', run rollingEnv (win rollingEnv midGame)
          (List.replicate 2 Event.animationFrame) = some gm ∧
        startNextLevel rollingEnv gm = some g' ∧
        g'.moves = midGame.moves + midGame.movesThisLevel ∧ g'.movesThisLevel = 0 ∧
        g'.activators = [] ∧
        g'.moves + g'.movesThisLevel = midGame.moves + midGame.movesThisLevel :=
  ⟨by decide, by decide, by decide, by decide, by decide,
    (win_folds_counter_once rollingEnv midGame 2 (by decide)).2.1⟩

/-- C7: a completed `startNextLevel()` has raised `level` by exactly 1 and set
`checkNextCoord`; at the new level 6 it shows the modal and leaves the block
and `board.tiles` untouched, otherwise `block.initialPos` is
`LEVELS[level].startPosition` and `board.tiles` the grid built from
`LEVELS[level].board`; it completes when the new level is 6 or exists in
`LEVELS`.  `handleKeydown`, `receiveMove`, `win`, `lose`, the cleanup of
`lose` and `dropBlock` leave `level` as it is, so only `reset()` lowers it. -/
theorem startNextLevel_advances (env : Env) (g : Game) :
    (∀ g', startNextLevel env g = some g' →
      g'.level = g.level + 1 ∧ g'.checkNextCoord = true ∧
        (g'.level = 6 →
          g'.modalDisplay = "flex" ∧ g'.block.initialPos = g.block.initialPos ∧
            g'.block = g.block ∧ g'.tiles = g.tiles) ∧
        (g'.level ≠ 6 →
          ∃ lvl, levelAt env g'.level = some lvl ∧
            g'.block.initialPos = lvl.startPosition ∧
            g'.tiles = env.createTiles lvl.board)) ∧
    (g.level + 1 = 6 ∨ (levelAt env (g.level + 1)).isSome →
      (startNextLevel env g).isSome) ∧
    (∀ key g', handleKeydown env g key = some g' → g'.level = g.level) ∧
    (∀ x z g', receiveMove env g x z = some g' → g'.level = g.level) ∧
    (win env g).level = g.level ∧ (lose env g).level = g.level ∧
    (∀ g', loseCleanup env g = some g' → g'.level = g.level) ∧
    (∀ targetHeight, (dropBlock env g targetHeight).level = g.level) := by
  refine ⟨?_, startNextLevel_isSome env g, ?_, ?_, (win_fields env g).1,
    (lose_fields env g).1, ?_, ?_⟩
  · intro g' h
    have hs := startNextLevel_fields h
    refine ⟨hs.1, hs.2.1, ?_, ?_⟩
    · intro h6
      obtain ⟨m, b, t⟩ := hs.2.2.2.2.2.2.2.1 h6
      exact ⟨m, by rw [b], b, t⟩
    · intro h6
      obtain ⟨lvl, h1, h2, h3, _⟩ := hs.2.2.2.2.2.2.2.2 h6
      exact ⟨lvl, h1, h2, h3⟩
  · intro key g' h
    exact handleKeydown_level h
  · intro x z g' h
    exact receiveMove_level h
  · intro g' h
    exact (loseCleanup_fields h).1
  · intro targetHeight
    exact (dropBlock_fields env g targetHeight).1

theorem startNextLevel_advances_witness :
    ∃ g', startNextLevel rollingEnv (gameOn sampleTiles "y" [(2, 0)]) = some g' ∧
      g'.level = (gameOn sampleTiles "y" [(2, 0)]).level + 1 ∧ g'.checkNextCoord = true :=
  match Option.isSome_iff_exists.mp
      ((startNextLevel_advances rollingEnv (gameOn sampleTiles "y" [(2, 0)])).2.1
        (by decide)) with
  | ⟨g', hg'⟩ =>
    ⟨g', hg',
      ((startNextLevel_advances rollingEnv (gameOn sampleTiles "y" [(2, 0)])).1 g' hg').1,
      ((startNextLevel_advances rollingEnv (gameOn sampleTiles "y" [(2, 0)])).1 g' hg').2.1⟩

/-! ## The one-shot suppression flag -/

/-- A step that sets no timer, taken with `checkNextCoord` true under a block
that is not upright, leaves the flag true and the block alone. -/
theorem receiveMove_flat_quiet {env : Env} {g g' : Game} {x z : Int}
    (h : receiveMove env g x z = some g') (hcheck : g.checkNextCoord = true)
    (hflat : g.block.alignment ≠ "y") (hlen : g'.timers.length ≤ g.timers.length) :
    g'.checkNextCoord = true ∧ g'.block = g.block ∧ g'.timers = g.timers := by
  rcases receiveMove_cases h with
    ⟨hc, _⟩ | ⟨_, rfl | rfl | ⟨rfl, _⟩ | ⟨tile, tiles, _, _, hu, rfl⟩⟩
  · rw [hcheck] at hc; simp at hc
  · exact ⟨hcheck, rfl, rfl⟩
  · rw [timers_lose] at hlen; simp at hlen
  · rw [timers_win] at hlen; simp at hlen
  · simp [afterActivator, hflat, hcheck]

theorem receiveMoves_flat_quiet {env : Env} (coords : List (Int × Int)) :
    ∀ {g g' : Game}, receiveMoves env g coords = some g' → g.checkNextCoord = true →
      g.block.alignment ≠ "y" → g'.timers.length ≤ g.timers.length →
      g'.checkNextCoord = true := by
  induction coords with
  | nil =>
    intro g g' h hcheck _ _
    simp only [receiveMoves, Option.some.injEq] at h
    rw [← h]; exact hcheck
  | cons coord rest ih =>
    intro g g' h hcheck hflat hlen
    unfold receiveMoves at h
    split at h
    · simp at h
    · rename_i g1 h1
      have hrest := receiveMoves_timers_length rest h
      obtain ⟨c1, b1, t1⟩ := receiveMove_flat_quiet h1 hcheck hflat (by omega)
      apply ih h c1
      · rw [b1]; exact hflat
      · rw [t1]; exact hlen

/-- Whenever an accepted move that starts with `checkNextCoord` true
completes without a call of `win()` or `lose()` (no timer was set),
`checkNextCoord` is true again after its coordinate evaluations, provided the
block is then not upright or `block.coords` holds the same coordinate twice;
and on a board where every lookup succeeds the move does complete. -/
theorem quiet_move_restores_check (env : Env) (g : Game) (key : String) (pose : Pose)
    (hkey : key ∈ KEYDOWN_EVENTS)
    (hcheck : g.checkNextCoord = true)
    (hpose : rollBlock env key g.block.pose = some pose)
    (hshape : pose.alignment ≠ "y" ∨ ∃ c, pose.coords = [c, c]) :
    (∀ g', handleKeydown env g key = some g' → g'.timers = g.timers →
      g'.checkNextCoord = true) ∧
    (WellLinked g.tiles → ∃ g', handleKeydown env g key = some g') := by
  obtain ⟨pose', hpose', hmove⟩ := handleKeydown_arrow env g hkey
  rw [hpose] at hpose'
  simp only [Option.some.injEq] at hpose'
  subst hpose'
  constructor
  · intro g' hg' hquiet
    rw [hmove] at hg'
    have hlen : g'.timers.length ≤ (afterRoll g pose).timers.length := by
      rw [hquiet]; exact le_refl _
    by_cases hy : pose.alignment = "y"
    · rcases hshape with hflat | ⟨c, hc⟩
      · exact absurd hy hflat
      · rw [hc] at hg'
        unfold receiveMoves at hg'
        split at hg'
        · simp at hg'
        · rename_i g1 h1
          unfold receiveMoves at hg'
          split at hg'
          · simp at hg'
          · rename_i g2 h2
            simp only [receiveMoves, Option.some.injEq] at hg'
            subst hg'
            have hlen2 := receiveMove_timers_length h2
            rcases receiveMove_cases h1 with
              ⟨hc0, _⟩ | ⟨_, rfl | rfl | ⟨rfl, _⟩ | ⟨tile, tiles, _, _, hu, rfl⟩⟩
            · rw [show (afterRoll g pose).checkNextCoord = g.checkNextCoord from rfl,
                hcheck] at hc0
              simp at hc0
            · rw [h1] at h2
              simp only [Option.some.injEq] at h2
              rw [← h2]
              exact hcheck
            · rw [timers_lose] at hlen2
              simp only [List.length_append, List.length_singleton] at hlen2
              omega
            · rw [timers_win] at hlen2
              simp only [List.length_append, List.length_singleton] at hlen2
              omega
            · have hskip :
                  (afterActivator (afterRoll g pose) tile tiles).checkNextCoord = false := by
                have hy' : (afterRoll g pose).block.alignment = "y" := hy
                simp [afterActivator, hy']
              rw [receiveMove_skip env _ _ _ hskip] at h2
              simp only [Option.some.injEq] at h2
              rw [← h2]
    · exact receiveMoves_flat_quiet pose.coords hg' hcheck hy hlen
  · intro hlinked
    have hl : WellLinked (afterRoll g pose).tiles := hlinked
    obtain ⟨g', hg', _⟩ := WellLinked.receiveMoves env pose.coords hl
    exact ⟨g', hmove.trans hg'⟩

theorem receiveMove_quiet_block {env : Env} {g g' : Game} {x z : Int}
    (h : receiveMove env g x z = some g') (hlen : g'.timers.length ≤ g.timers.length) :
    g'.block = g.block := by
  rcases receiveMove_cases h with
    ⟨_, rfl⟩ | ⟨_, rfl | rfl | ⟨rfl, _⟩ | ⟨tile, tiles, _, _, hu, rfl⟩⟩
  · rfl
  · rfl
  · rw [timers_lose] at hlen; simp at hlen
  · rw [timers_win] at hlen; simp at hlen
  · rfl

theorem receiveMoves_quiet_block {env : Env} (coords : List (Int × Int)) :
    ∀ {g g' : Game}, receiveMoves env g coords = some g' →
      g'.timers.length ≤ g.timers.length → g'.block = g.block := by
  induction coords with
  | nil =>
    intro g g' h _
    simp only [receiveMoves, Option.some.injEq] at h
    rw [h]
  | cons coord rest ih =>
    intro g g' h hlen
    unfold receiveMoves at h
    split at h
    · simp at h
    · rename_i g1 h1
      have hrest := receiveMoves_timers_length rest h
      have hfirst := receiveMove_timers_length h1
      rw [ih h (by omega), receiveMove_quiet_block h1 (by omega)]

theorem handleKeydown_timers_length {env : Env} {g g' : Game} {key : String}
    (h : handleKeydown env g key = some g') : g.timers.length ≤ g'.timers.length := by
  by_cases hkey : key ∈ KEYDOWN_EVENTS
  · obtain ⟨pose, _, hmove⟩ := handleKeydown_arrow env g hkey
    rw [hmove] at h
    have hlen := receiveMoves_timers_length pose.coords h
    exact hlen
  · rw [handleKeydown_other env g hkey] at h
    simp only [Option.some.injEq] at h
    rw [h]

theorem play_timers_length {env : Env} (keys : List String) :
    ∀ {g g' : Game}, play env g keys = some g' → g.timers.length ≤ g'.timers.length := by
  induction keys with
  | nil =>
    intro g g' h
    simp only [play, Option.some.injEq] at h
    rw [h]
  | cons key rest ih =>
    intro g g' h
    unfold play at h
    split at h
    · simp at h
    · rename_i g1 h1
      exact le_trans (handleKeydown_timers_length h1) (ih h)

theorem WellLinked.handleKeydown (env : Env) {g : Game} (h : WellLinked g.tiles)
    (key : String) : ∃ g', Bloxy.handleKeydown env g key = some g' ∧ WellLinked g'.tiles := by
  by_cases hkey : key ∈ KEYDOWN_EVENTS
  · obtain ⟨pose, _, hmove⟩ := handleKeydown_arrow env g hkey
    have hl : WellLinked (afterRoll g pose).tiles := h
    obtain ⟨g', hg', hl'⟩ := WellLinked.receiveMoves env pose.coords hl
    exact ⟨g', hmove.trans hg', hl'⟩
  · exact ⟨g, handleKeydown_other env g hkey, h⟩

theorem WellLinked.play (env : Env) (keys : List String) :
    ∀ {g : Game}, WellLinked g.tiles → ∃ g', Bloxy.play env g keys = some g' := by
  induction keys with
  | nil => intro g _; exact ⟨g, rfl⟩
  | cons key rest ih =>
    intro g h
    obtain ⟨g1, h1, hl1⟩ := WellLinked.handleKeydown env h key
    obtain ⟨g', hg'⟩ := ih hl1
    refine ⟨g', ?_⟩
    unfold Bloxy.play
    rw [h1]
    exact hg'

/-- One accepted move of a block that keeps two entries in `coords`, equal
when it stands: taken with `checkNextCoord` true and setting no timer, it
ends with `checkNextCoord` true, the block still of that shape. -/
theorem quiet_move_keeps_check {env : Env} {g g1 : Game} {key : String}
    (hblock : PairedBlock env) (hstart : Paired g.block.pose)
    (hcheck : g.checkNextCoord = true) (h : handleKeydown env g key = some g1)
    (hlen : g1.timers.length ≤ g.timers.length) :
    g1.checkNextCoord = true ∧ Paired g1.block.pose ∧ g1.timers = g.timers := by
  by_cases hkey : key ∈ KEYDOWN_EVENTS
  · obtain ⟨pose, hpose, hmove⟩ := handleKeydown_arrow env g hkey
    obtain ⟨c1, c2, hc, hup⟩ := hblock key g.block.pose pose hstart hpose
    have hshape : pose.alignment ≠ "y" ∨ ∃ c, pose.coords = [c, c] := by
      by_cases hy : pose.alignment = "y"
      · right
        refine ⟨c1, ?_⟩
        rw [hc, ← hup hy]
      · exact Or.inl hy
    have hmoves := h
    rw [hmove] at hmoves
    have hquiet : g1.timers = g.timers := (receiveMoves_quiet pose.coords hmoves hlen).1
    have hsame : g1.block = (afterRoll g pose).block :=
      receiveMoves_quiet_block pose.coords hmoves hlen
    refine ⟨(quiet_move_restores_check env g key pose hkey hcheck hpose hshape).1 g1 h hquiet,
      ?_, hquiet⟩
    rw [hsame]
    exact ⟨c1, c2, hc, hup⟩
  · rw [handleKeydown_other env g hkey] at h
    simp only [Option.some.injEq] at h
    subst h
    exact ⟨hcheck, hstart, rfl⟩

theorem quiet_play_keeps_check {env : Env} (hblock : PairedBlock env) (keys : List String) :
    ∀ {g g' : Game}, Paired g.block.pose → g.checkNextCoord = true →
      play env g keys = some g' → g'.timers.length ≤ g.timers.length →
      ∀ before after, keys = before ++ after →
        ∃ gm, play env g before = some gm ∧ gm.checkNextCoord = true := by
  induction keys with
  | nil =>
    intro g g' _ hcheck _ _ before after hsplit
    have hb : before = [] := (List.append_eq_nil.mp hsplit.symm).1
    rw [hb]
    exact ⟨g, rfl, hcheck⟩
  | cons key rest ih =>
    intro g g' hstart hcheck h hlen before after hsplit
    unfold play at h
    split at h
    · simp at h
    · rename_i g1 h1
      have hrest := play_timers_length rest h
      have hfirst := handleKeydown_timers_length h1
      obtain ⟨hc1, hp1, ht1⟩ := quiet_move_keeps_check hblock hstart hcheck h1 (by omega)
      cases before with
      | nil => exact ⟨g, rfl, hcheck⟩
      | cons first more =>
        simp only [List.cons_append, List.cons.injEq] at hsplit
        obtain ⟨hkey, hmore⟩ := hsplit
        obtain ⟨gm, hgm, hcm⟩ := ih hp1 hc1 h (by rw [ht1]; exact hlen) more after hmore
        refine ⟨gm, ?_, hcm⟩
        unfold play
        rw [← hkey, h1]
        exact hgm

theorem tipPair_paired (dx dz : Int) (pose : Pose) (h : Paired pose) :
    Paired (tipPair dx dz pose) := by
  obtain ⟨⟨x1, z1⟩, ⟨x2, z2⟩, hc, hup⟩ := h
  unfold tipPair
  rw [hc]
  simp only
  split_ifs
  all_goals first
    | exact ⟨_, _, hc, hup⟩
    | exact ⟨_, _, rfl, fun _ => rfl⟩
    | (refine ⟨_, _, rfl, fun hy => ?_⟩
       exact absurd hy (by assumption))
    | (refine ⟨_, _, rfl, fun hy => ?_⟩
       simp at hy)

theorem blockEnv_paired (levels : List Level) : PairedBlock (blockEnv levels true) := by
  intro key pose pose' hpose hroll
  unfold rollBlock at hroll
  split_ifs at hroll
  all_goals simp only [Option.some.injEq] at hroll
  all_goals subst hroll
  all_goals exact tipPair_paired _ _ pose hpose

/-- C4: for a block that keeps two entries in `block.coords`, equal when it
stands, the suppression set by an activator is used up inside the move that
set it.  An upright landing on an activator evaluates the activator once,
skips the block's other coordinate and ends with `checkNextCoord` true; and
in any run of key presses that starts with `checkNextCoord` true and triggers
neither `win()` nor `lose()` (no timer is set), every move starts and ends
with `checkNextCoord` true, so no coordinate of a later move is skipped.  On
a board where every lookup succeeds the run completes. -/
theorem suppression_stays_within_move (env : Env) (g : Game) (keys : List String)
    (hblock : PairedBlock env) (hstart : Paired g.block.pose)
    (hcheck : g.checkNextCoord = true) :
    (∀ key pose c tile, key ∈ KEYDOWN_EVENTS → rollBlock env key g.block.pose = some pose →
      pose.alignment = "y" → c ∈ pose.coords → lookupTile g.tiles c.1 c.2 = some tile →
      tile.type = "activator" → InBounds g.tiles tile.bridgeCoords →
      ∃ g', handleKeydown env g key = some g' ∧
        updateFlags (fun wasActivated => !wasActivated) g.tiles tile.bridgeCoords =
          some g'.tiles ∧
        g'.activators = g.activators ++ [tile] ∧ g'.timers = g.timers ∧
        g'.checkNextCoord = true) ∧
    (∀ g', play env g keys = some g' → g'.timers = g.timers →
      g'.checkNextCoord = true ∧
      ∀ before after, keys = before ++ after →
        ∃ gm, play env g before = some gm ∧ gm.checkNextCoord = true) ∧
    (WellLinked g.tiles → ∃ g', play env g keys = some g') := by
  refine ⟨?_, ?_, fun hlinked => WellLinked.play env keys hlinked⟩
  · intro key pose c tile hkey hpose hy hc htile hact hlinks
    obtain ⟨pose', hpose', hmove⟩ := handleKeydown_arrow env g hkey
    rw [hpose] at hpose'
    simp only [Option.some.injEq] at hpose'
    subst hpose'
    obtain ⟨c1, c2, hcs, hup⟩ := hblock key g.block.pose pose hstart hpose
    have h12 : c2 = c1 := (hup hy).symm
    subst h12
    rw [hcs] at hc
    have hcc : c = c2 := by simpa using hc
    subst hcc
    obtain ⟨tiles1, h1⟩ := Option.isSome_iff_exists.mp
      (updateFlags_isSome (fun wasActivated => !wasActivated) tile.bridgeCoords hlinks)
    have hfirst : receiveMove env (afterRoll g pose) c.1 c.2 =
        some (afterActivator (afterRoll g pose) tile tiles1) := by
      rw [receiveMove_activator env (afterRoll g pose) c.1 c.2 tile hcheck htile hact]
      show (updateFlags _ g.tiles tile.bridgeCoords).map _ = _
      rw [h1]
      rfl
    have hskip : (afterActivator (afterRoll g pose) tile tiles1).checkNextCoord = false := by
      have hy' : (afterRoll g pose).block.alignment = "y" := hy
      simp [afterActivator, hy']
    refine ⟨{ afterActivator (afterRoll g pose) tile tiles1 with checkNextCoord := true },
      ?_, h1, rfl, rfl, rfl⟩
    rw [hmove, hcs]
    simp [receiveMoves, hfirst, receiveMove_skip env _ _ _ hskip]
  · intro g' hg' hquiet
    have hlen : g'.timers.length ≤ g.timers.length := by rw [hquiet]
    have hall := quiet_play_keeps_check hblock keys hstart hcheck hg' hlen
    obtain ⟨gm, hgm, hcm⟩ := hall keys [] (List.append_nil keys).symm
    rw [hg'] at hgm
    simp only [Option.some.injEq] at hgm
    subst hgm
    exact ⟨hcm, hall⟩

theorem suppression_stays_within_move_witness :
    PairedBlock (blockEnv [gapLevel] true) ∧
      Paired (gameOn leakTiles "x" [(0, 0), (1, 0)]).block.pose ∧
      (gameOn leakTiles "x" [(0, 0), (1, 0)]).checkNextCoord = true ∧
      (handleKeydown (blockEnv [gapLevel] true) (gameOn leakTiles "x" [(0, 0), (1, 0)])
          "ArrowRight").map
          (fun g => (g.block.alignment, g.block.coords, g.activators, g.checkNextCoord)) =
        some ("y", [(2, 0), (2, 0)], [leakActivator], true) ∧
      (play (blockEnv [gapLevel] true) (gameOn leakTiles "x" [(0, 0), (1, 0)])
          ["ArrowRight", "ArrowLeft"]).map
          (fun g => (g.block.coords, g.activators, g.timers, g.checkNextCoord)) =
        some ([(0, 0), (1, 0)], [leakActivator], [], true) ∧
      (∃ g', handleKeydown (blockEnv [gapLevel] true) (gameOn leakTiles "x" [(0, 0), (1, 0)])
          "ArrowRight" = some g' ∧
        updateFlags (fun wasActivated => !wasActivated)
            (gameOn leakTiles "x" [(0, 0), (1, 0)]).tiles leakActivator.bridgeCoords =
          some g'.tiles ∧
        g'.activators = (gameOn leakTiles "x" [(0, 0), (1, 0)]).activators ++ [leakActivator] ∧
        g'.timers = (gameOn leakTiles "x" [(0, 0), (1, 0)]).timers ∧
        g'.checkNextCoord = true) ∧
      (∀ g', play (blockEnv [gapLevel] true) (gameOn leakTiles "x" [(0, 0), (1, 0)])
          ["ArrowRight", "ArrowLeft"] = some g' →
        g'.timers = (gameOn leakTiles "x" [(0, 0), (1, 0)]).timers →
        g'.checkNextCoord = true ∧
        ∀ before after, ["ArrowRight", "ArrowLeft"] = before ++ after →
          ∃ gm, play (blockEnv [gapLevel] true) (gameOn leakTiles "x" [(0, 0), (1, 0)])
            before = some gm ∧ gm.checkNextCoord = true) :=
  ⟨blockEnv_paired [gapLevel], ⟨(0, 0), (1, 0), rfl, by decide⟩, rfl, by decide, by decide,
    (suppression_stays_within_move (blockEnv [gapLevel] true)
      (gameOn leakTiles "x" [(0, 0), (1, 0)]) ["ArrowRight", "ArrowLeft"]
      (blockEnv_paired [gapLevel]) ⟨(0, 0), (1, 0), rfl, by decide⟩ rfl).1
      "ArrowRight" { alignment := "y", coords := [(2, 0), (2, 0)], height := 140 } (2, 0)
      leakActivator (by decide) (by decide) rfl (by decide) (by decide) rfl (by decide),
    (suppression_stays_within_move (blockEnv [gapLevel] true)
      (gameOn leakTiles "x" [(0, 0), (1, 0)]) ["ArrowRight", "ArrowLeft"]
      (blockEnv_paired [gapLevel]) ⟨(0, 0), (1, 0), rfl, by decide⟩ rfl).2.1⟩

/-! ## Landing on an empty tile -/

theorem receiveMove_empty (env : Env) (g : Game) (x z : Int) (t : Tile)
    (hcheck : g.checkNextCoord = true) (ht : tileAt g.tiles z x = some t)
    (hempty : t.type = "empty") : receiveMove env g x z = some (lose env g) := by
  have hl : lookupTile g.tiles x z = some t := by
    unfold lookupTile
    rw [ht]
  simp [receiveMove, hcheck, hl, hempty]

theorem receiveMove_after_lose (env : Env) (g : Game) (x z : Int) :
    receiveMove env (lose env g) x z =
      some { lose env g with checkNextCoord := true } :=
  receiveMove_skip env (lose env g) x z (lose_fields env g).2.2.2.2.2.2.1

/-- On a board where every lookup succeeds, an accepted move that starts
with `checkNextCoord` true and after which some entry of `block.coords`
addresses an empty tile completes with exactly one call of `lose()`, whatever
the alignment; `block.coords` has one entry, or two that are equal when the
block is upright. -/
theorem empty_tile_loses (env : Env) (g : Game) (key : String) (pose : Pose)
    (hkey : key ∈ KEYDOWN_EVENTS) (hlinked : WellLinked g.tiles)
    (hcheck : g.checkNextCoord = true)
    (hpose : rollBlock env key g.block.pose = some pose)
    (hshape : (∃ c, pose.coords = [c]) ∨
      ∃ c1 c2, pose.coords = [c1, c2] ∧ (pose.alignment = "y" → c1 = c2))
    (hempty : ∃ c ∈ pose.coords, ∃ t, tileAt g.tiles c.2 c.1 = some t ∧ t.type = "empty") :
    ∃ g', handleKeydown env g key = some g' ∧ loseTriggered g g' := by
  obtain ⟨pose', hpose', hmove⟩ := handleKeydown_arrow env g hkey
  rw [hpose] at hpose'
  simp only [Option.some.injEq] at hpose'
  subst hpose'
  rw [hmove]
  obtain ⟨c, hc, t, ht, hte⟩ := hempty
  have hfirst : ∀ c0 : Int × Int, tileAt g.tiles c0.2 c0.1 = some t →
      receiveMove env (afterRoll g pose) c0.1 c0.2 = some (lose env (afterRoll g pose)) :=
    fun c0 h0 => receiveMove_empty env (afterRoll g pose) c0.1 c0.2 t hcheck h0 hte
  have hlose : loseTriggered g (lose env (afterRoll g pose)) := timers_lose env _
  rcases hshape with ⟨c0, h0⟩ | ⟨c1, c2, h12, hup⟩
  · rw [h0] at hc ⊢
    simp only [List.mem_singleton] at hc
    subst hc
    refine ⟨lose env (afterRoll g pose), ?_, hlose⟩
    simp [receiveMoves, hfirst c ht]
  · rw [h12] at hc ⊢
    have hfromfirst : tileAt g.tiles c1.2 c1.1 = some t →
        ∃ g', receiveMoves env (afterRoll g pose) [c1, c2] = some g' ∧ loseTriggered g g' := by
      intro h1
      refine ⟨{ lose env (afterRoll g pose) with checkNextCoord := true }, ?_, hlose⟩
      simp [receiveMoves, hfirst c1 h1, receiveMove_after_lose]
    simp only [List.mem_cons, List.mem_singleton, List.not_mem_nil, or_false] at hc
    rcases hc with rfl | rfl
    · exact hfromfirst ht
    · by_cases hy : pose.alignment = "y"
      · rw [hup hy]
        rw [hup hy] at hfromfirst
        exact hfromfirst ht
      · have hl : WellLinked (afterRoll g pose).tiles := hlinked
        obtain ⟨g1, h1, _⟩ := WellLinked.receiveMove env hl c1.1 c1.2
        rcases receiveMove_cases h1 with
          ⟨hc0, _⟩ | ⟨_, rfl | rfl | ⟨rfl, hy'⟩ | ⟨tile, tiles, _, _, hu, rfl⟩⟩
        · rw [show (afterRoll g pose).checkNextCoord = g.checkNextCoord from rfl, hcheck] at hc0
          simp at hc0
        · refine ⟨lose env (afterRoll g pose), ?_, hlose⟩
          simp [receiveMoves, h1, hfirst c ht]
        · refine ⟨{ lose env (afterRoll g pose) with checkNextCoord := true }, ?_, hlose⟩
          simp [receiveMoves, h1, receiveMove_after_lose]
        · exact absurd hy' hy
        · have hflat : (afterRoll g pose).block.alignment ≠ "y" := hy
          have hc1 : (afterActivator (afterRoll g pose) tile tiles).checkNextCoord = true := by
            simp [afterActivator, hflat]
            exact hcheck
          have ht1 : tileAt (afterActivator (afterRoll g pose) tile tiles).tiles c.2 c.1 =
              some (t.withFlag
                ((fun wasActivated => !wasActivated)^[tile.bridgeCoords.count (c.2, c.1)]
                  t.isActivated)) := by
            show tileAt tiles c.2 c.1 = _
            rw [tileAt_updateFlags _ hu]
            have ht' : tileAt (afterRoll g pose).tiles c.2 c.1 = some t := ht
            rw [ht']
            rfl
          have h2 := receiveMove_empty env _ c.1 c.2 _ hc1 ht1 hte
          refine ⟨lose env (afterActivator (afterRoll g pose) tile tiles), ?_, ?_⟩
          · simp [receiveMoves, h1, h2]
          · exact timers_lose env _

theorem empty_tile_loses_witness :
    "ArrowDown" ∈ KEYDOWN_EVENTS ∧ WellLinked (gameOn sampleTiles "y" [(0, 0)]).tiles ∧
      (gameOn sampleTiles "y" [(0, 0)]).checkNextCoord = true ∧
      rollBlock rollingEnv "ArrowDown" (gameOn sampleTiles "y" [(0, 0)]).block.pose =
        some { alignment := "z", coords := [(0, 1), (0, 2)], height := 140 } ∧
      tileAt (gameOn sampleTiles "y" [(0, 0)]).tiles 2 0 = some (plainTile "empty") ∧
      ∃ g', handleKeydown rollingEnv (gameOn sampleTiles "y" [(0, 0)]) "ArrowDown" = some g' ∧
        loseTriggered (gameOn sampleTiles "y" [(0, 0)]) g' :=
  ⟨by decide, by decide, rfl, by decide, by decide,
    empty_tile_loses rollingEnv (gameOn sampleTiles "y" [(0, 0)]) "ArrowDown"
      { alignment := "z", coords := [(0, 1), (0, 2)], height := 140 }
      (by decide) (by decide) rfl (by decide)
      (Or.inr ⟨(0, 1), (0, 2), rfl, by decide⟩)
      ⟨(0, 2), by decide, plainTile "empty", by decide, by decide⟩⟩

/-- C2 is violated by the code.  In a new game on `gapLevel` the block rolls
right onto the cells `(1, 0)` and `(2, 0)`; the second is empty, `lose()` is
called and leaves `checkNextCoord` false.  Once the drop-out has ended the
key listener is attached again while the cleanup of `lose()` is still
pending, and ArrowDown is accepted: the block comes to lie on the cells
`(1, 1)` and `(2, 1)`, the first of which is empty; its evaluation is skipped
and `lose()` is not called.  This holds for the block that keeps one entry in
`coords` while it stands and for the block that keeps two. -/
theorem empty_tile_skipped_while_lose_pending (paired : Bool) :
    (gapPending paired).map (fun g => (g.listening, g.timers, g.checkNextCoord)) =
        some (true, [Timer.loseCleanup], false) ∧
      ((gapPending paired).bind (fun g1 =>
        (dispatch (blockEnv [gapLevel] paired) g1 (Event.keydown "ArrowDown")).map
          (fun g2 => (g2.block.coords, (tileAt g1.tiles 1 1).map (fun t => t.type),
            decide (loseTriggered g1 g2), g2.timers)))) =
        some ([(1, 1), (2, 1)], some "empty", false, [Timer.loseCleanup]) := by
  cases paired <;> decide

/-! ## The cleanup after a lose -/

theorem const_false_iterate (n : Nat) (b : Bool) :
    (fun _ : Bool => false)^[n] b = if n = 0 then b else false := by
  cases n with
  | zero => rfl
  | succ n => rw [Function.iterate_succ_apply']; simp

theorem tileAt_resetBridges (activators : List Tile) :
    ∀ {tiles tiles' : Tiles}, resetBridges tiles activators = some tiles' →
      ∀ row col : Int, tileAt tiles' row col =
        (tileAt tiles row col).map
          (fun t => t.withFlag (resetFlag activators (row, col) t.isActivated)) := by
  induction activators with
  | nil =>
    intro tiles tiles' h row col
    simp only [resetBridges, Option.some.injEq] at h
    subst h
    cases tileAt tiles row col <;> simp [Tile.withFlag, resetFlag]
  | cons a rest ih =>
    intro tiles tiles' h row col
    unfold resetBridges at h
    split at h
    · simp at h
    · rename_i tiles1 h1
      rw [ih h row col, tileAt_updateFlags _ h1 row col]
      cases tileAt tiles row col with
      | none => rfl
      | some t =>
        simp only [Option.map_some', Option.some.injEq, Tile.withFlag, const_false_iterate,
          resetFlag, List.any_cons]
        by_cases hin : (row, col) ∈ a.bridgeCoords
        · have hcount : List.count (row, col) a.bridgeCoords ≠ 0 := by
            rw [Ne, List.count_eq_zero]
            exact fun hn => hn hin
          have hcont : a.bridgeCoords.contains (row, col) = true := by
            simpa using hin
          simp [hcount, hcont, hin]
        · have hcount : List.count (row, col) a.bridgeCoords = 0 :=
            List.count_eq_zero.mpr hin
          have hcont : a.bridgeCoords.contains (row, col) = false := by
            simpa using hin
          simp [hcount, hcont, hin]

theorem resetBridges_isSome (activators : List Tile) :
    ∀ {tiles : Tiles}, (∀ a ∈ activators, InBounds tiles a.bridgeCoords) →
      (resetBridges tiles activators).isSome := by
  induction activators with
  | nil => intro tiles _; simp [resetBridges]
  | cons a rest ih =>
    intro tiles h
    obtain ⟨tiles1, h1⟩ := Option.isSome_iff_exists.mp
      (updateFlags_isSome (fun _ => false) a.bridgeCoords
        (h a (List.mem_cons_self _ _)))
    unfold resetBridges
    rw [h1]
    apply ih
    intro b hb
    exact InBounds_updateFlags h1 _ (h b (List.mem_cons_of_mem _ hb))

theorem Carries.refl (g : Game) : Carries g g :=
  ⟨fun _ h => h, fun _ _ h => h, fun h => h⟩

theorem Carries.trans {a b c : Game} (hab : Carries a b) (hbc : Carries b c) :
    Carries a c :=
  ⟨fun t h => hbc.1 t (hab.1 t h),
    fun hno x hx => hbc.2.1 hno x (hab.2.1 (fun hb => hno (hbc.1 _ hb)) x hx),
    fun h => hbc.2.2 (hab.2.2 h)⟩

theorem WellLinked.of_lookup {tiles : Tiles} (h : WellLinked tiles) {x z : Int} {tile : Tile}
    (htile : lookupTile tiles x z = some tile) : InBounds tiles tile.bridgeCoords := by
  unfold lookupTile at htile
  cases hzx : tileAt tiles z x with
  | some t =>
    rw [hzx] at htile
    simp only [Option.some.injEq] at htile
    subst htile
    exact h.inBounds hzx
  | none =>
    rw [hzx] at htile
    exact h.inBounds htile

theorem receiveMove_carries {env : Env} {g g' : Game} {x z : Int}
    (h : receiveMove env g x z = some g') : Carries g g' := by
  rcases receiveMove_cases h with
    ⟨_, rfl⟩ | ⟨_, rfl | rfl | ⟨rfl, _⟩ | ⟨tile, tiles, htile, _, hu, rfl⟩⟩
  · exact ⟨fun _ h => h, fun _ _ h => h, fun h => h⟩
  · exact Carries.refl _
  · have hf := lose_fields env g
    refine ⟨?_, ?_, ?_⟩
    · intro t ht
      rw [timers_lose]
      exact List.mem_append_left _ ht
    · intro _ a ha
      rw [hf.2.2.2.2.2.1]
      exact ha
    · intro hr
      unfold Recorded
      rw [hf.2.2.2.2.1, hf.2.2.2.2.2.1]
      exact hr
  · have hf := win_fields env g
    refine ⟨?_, ?_, ?_⟩
    · intro t ht
      rw [timers_win]
      exact List.mem_append_left _ ht
    · intro hno
      rw [timers_win] at hno
      simp at hno
    · intro hr
      unfold Recorded
      rw [hf.2.2.2.2.1, hf.2.2.2.2.2.1]
      exact ⟨hr.1, fun a ha => by simp at ha⟩
  · refine ⟨fun _ h => h, ?_, ?_⟩
    · intro _ a ha
      exact List.mem_append_left _ ha
    · intro hr
      refine ⟨hr.1.updateFlags hu, ?_⟩
      intro a ha
      have ha' : a ∈ g.activators ++ [tile] := ha
      rcases List.mem_append.mp ha' with h1 | h1
      · exact InBounds_updateFlags hu _ (hr.2 a h1)
      · simp only [List.mem_singleton] at h1
        subst h1
        exact InBounds_updateFlags hu _ (hr.1.of_lookup htile)

theorem receiveMoves_carries {env : Env} (coords : List (Int × Int)) :
    ∀ {g g' : Game}, receiveMoves env g coords = some g' → Carries g g' := by
  induction coords with
  | nil =>
    intro g g' h
    simp only [receiveMoves, Option.some.injEq] at h
    subst h
    exact Carries.refl g
  | cons coord rest ih =>
    intro g g' h
    unfold receiveMoves at h
    split at h
    · simp at h
    · rename_i g1 h1
      exact (receiveMove_carries h1).trans (ih h)

theorem handleKeydown_carries {env : Env} {g g' : Game} {key : String}
    (h : handleKeydown env g key = some g') : Carries g g' := by
  by_cases hkey : key ∈ KEYDOWN_EVENTS
  · obtain ⟨pose, _, hmove⟩ := handleKeydown_arrow env g hkey
    rw [hmove] at h
    have h0 : Carries g (afterRoll g pose) := ⟨fun _ h => h, fun _ _ h => h, fun h => h⟩
    exact h0.trans (receiveMoves_carries pose.coords h)
  · rw [handleKeydown_other env g hkey] at h
    simp only [Option.some.injEq] at h
    subst h
    exact Carries.refl g

theorem play_carries {env : Env} (keys : List String) :
    ∀ {g g' : Game}, play env g keys = some g' → Carries g g' := by
  induction keys with
  | nil =>
    intro g g' h
    simp only [play, Option.some.injEq] at h
    subst h
    exact Carries.refl g
  | cons key rest ih =>
    intro g g' h
    unfold play at h
    split at h
    · simp at h
    · rename_i g1 h1
      exact (handleKeydown_carries h1).trans (ih h)

theorem loseCleanup_isSome (env : Env) (g : Game)
    (h : (resetBridges g.tiles g.activators).isSome) : (loseCleanup env g).isSome := by
  obtain ⟨tiles, ht⟩ := Option.isSome_iff_exists.mp h
  unfold loseCleanup updateCounters
  simp [ht]

theorem resetBridges_off {tiles tiles' : Tiles} {activators : List Tile}
    (h : resetBridges tiles activators = some tiles') {a : Tile} (ha : a ∈ activators)
    (hin : InBounds tiles a.bridgeCoords) {coord : Int × Int} (hc : coord ∈ a.bridgeCoords) :
    ∃ t, tileAt tiles' coord.1 coord.2 = some t ∧ t.isActivated = false := by
  obtain ⟨t0, ht0⟩ := Option.isSome_iff_exists.mp (hin coord hc)
  refine ⟨t0.withFlag (resetFlag activators (coord.1, coord.2) t0.isActivated), ?_, ?_⟩
  · rw [tileAt_resetBridges activators h, ht0]
    rfl
  · have hany : activators.any (fun a => a.bridgeCoords.contains (coord.1, coord.2)) = true := by
      rw [List.any_eq_true]
      exact ⟨a, ha, by simpa using hc⟩
    show resetFlag activators (coord.1, coord.2) t0.isActivated = false
    unfold resetFlag
    rw [if_pos hany]

/-- Take a state in which `receiveMove` evaluates an activator `tile` (the
board well linked, the activators recorded so far in bounds), finish that
move, play any further accepted moves without a call of `win()`, and run the
cleanup closure of `lose`.  The cleanup completes; afterwards every tile
listed in the `bridgeCoords` of `tile`, and of every recorded activator, has
`isActivated = false`, `movesThisLevel` is 0, `moves` is what it was before
the cleanup (and `lose()` itself never changes it), and `checkNextCoord` is
true. -/
theorem lose_cleanup_restores (env : Env) (g g1 g2 : Game) (x z : Int) (tile : Tile)
    (rest : List (Int × Int)) (keys : List String)
    (hlinked : WellLinked g.tiles)
    (hrecorded : ∀ a ∈ g.activators, InBounds g.tiles a.bridgeCoords)
    (hcheck : g.checkNextCoord = true)
    (htile : lookupTile g.tiles x z = some tile)
    (hact : tile.type = "activator")
    (hmove : receiveMoves env g ((x, z) :: rest) = some g1)
    (hplay : play env g1 keys = some g2)
    (hnowin : Timer.startNextLevel ∉ g2.timers) :
    ∃ g', loseCleanup env g2 = some g' ∧
      (∀ coord ∈ tile.bridgeCoords,
        ∃ t, tileAt g'.tiles coord.1 coord.2 = some t ∧ t.isActivated = false) ∧
      (∀ a ∈ g2.activators, ∀ coord ∈ a.bridgeCoords,
        ∃ t, tileAt g'.tiles coord.1 coord.2 = some t ∧ t.isActivated = false) ∧
      g'.movesThisLevel = 0 ∧ g'.moves = g2.moves ∧ g'.checkNextCoord = true ∧
      (∀ h : Game, (lose env h).moves = h.moves) := by
  unfold receiveMoves at hmove
  split at hmove
  · simp at hmove
  · rename_i ga ha
    have hcarry : Carries ga g2 := (receiveMoves_carries rest hmove).trans (play_carries keys hplay)
    have hrec2 : Recorded g2 :=
      hcarry.2.2 ((receiveMove_carries ha).2.2 ⟨hlinked, hrecorded⟩)
    have hmem : tile ∈ ga.activators := by
      rw [receiveMove_activator env g x z tile hcheck htile hact] at ha
      cases hu : updateFlags (fun wasActivated => !wasActivated) g.tiles tile.bridgeCoords with
      | none => simp [hu] at ha
      | some tiles =>
        simp only [hu, Option.map_some', Option.some.injEq] at ha
        subst ha
        simp [afterActivator]
    have hmem2 : tile ∈ g2.activators := hcarry.2.1 hnowin tile hmem
    obtain ⟨g', hg'⟩ := Option.isSome_iff_exists.mp
      (loseCleanup_isSome env g2 (resetBridges_isSome g2.activators hrec2.2))
    have hf := loseCleanup_fields hg'
    have hoff : ∀ a ∈ g2.activators, ∀ coord ∈ a.bridgeCoords,
        ∃ t, tileAt g'.tiles coord.1 coord.2 = some t ∧ t.isActivated = false :=
      fun a ha coord hc => resetBridges_off hf.2.2.2.2.2.2.2 ha (hrec2.2 a ha) hc
    exact ⟨g', hg', hoff tile hmem2, hoff, hf.2.2.1, hf.2.1, hf.2.2.2.2.1,
      fun h => (lose_fields env h).2.1⟩

theorem lose_cleanup_restores_witness :
    lookupTile (gameOn leakTiles "x" [(2, 0), (3, 0)]).tiles 2 0 = some leakActivator ∧
      receiveMoves rollingEnv (gameOn leakTiles "x" [(2, 0), (3, 0)]) [(2, 0), (3, 0)] =
        some leakAfter ∧
      loseTriggered (gameOn leakTiles "x" [(2, 0), (3, 0)]) leakAfter ∧
      (tileAt leakAfter.tiles 1 1).map (fun t => t.isActivated) = some true ∧
      ∃ g', loseCleanup rollingEnv leakAfter = some g' ∧
        (∀ coord ∈ leakActivator.bridgeCoords,
          ∃ t, tileAt g'.tiles coord.1 coord.2 = some t ∧ t.isActivated = false) ∧
        (∀ a ∈ leakAfter.activators, ∀ coord ∈ a.bridgeCoords,
          ∃ t, tileAt g'.tiles coord.1 coord.2 = some t ∧ t.isActivated = false) ∧
        g'.movesThisLevel = 0 ∧ g'.moves = leakAfter.moves ∧ g'.checkNextCoord = true ∧
        (∀ h : Game, (lose rollingEnv h).moves = h.moves) :=
  ⟨by decide, by decide, by decide, by decide,
    lose_cleanup_restores rollingEnv (gameOn leakTiles "x" [(2, 0), (3, 0)]) leakAfter leakAfter
      2 0 leakActivator [(3, 0)] [] (by decide) (by decide) rfl (by decide) (by decide)
      (by decide) rfl (by decide)⟩

/-- C5 is violated by the code.  In a game on `wideLevel` and `narrowLevel`
the first level is won; once the drop-out has ended the key listener is
attached again, and ArrowRight rolls the block over the activator of
`wideLevel` after `win()` has emptied `activators`.  `startNextLevel()` loads
`narrowLevel` and keeps the recorded activator, whose link, row 0, column 6,
is off the new board.  On `narrowLevel` the block rolls over the activator,
which activates the bridge at row 1, column 1, and onto the empty tile next
to it.  The cleanup of `lose()` reaches the stale activator first and throws;
the bridge stays activated.  This holds for the block that keeps one entry in
`coords` while it stands and for the block that keeps two. -/
theorem stale_activator_breaks_cleanup (paired : Bool) :
    ((newGame (blockEnv [wideLevel, narrowLevel] paired)).bind (fun g =>
        run (blockEnv [wideLevel, narrowLevel] paired) g (staleRun.take 8))).map
          (fun g => (g.level, g.timers, g.activators.map (fun a => a.bridgeCoords))) =
        some (1, [], [[(0, 6)]]) ∧
      (stalePending paired).map (fun g =>
          (g.level, g.timers, g.activators.map (fun a => a.bridgeCoords))) =
        some (1, [Timer.loseCleanup], [[(0, 6)], [(1, 1)]]) ∧
      (stalePending paired).map (fun g =>
          ((tileAt g.tiles 1 1).map (fun t => (t.type, t.isActivated)),
            (tileAt g.tiles 0 6).isSome)) =
        some (some ("bridge", true), false) ∧
      ((stalePending paired).bind (fun g =>
          dispatch (blockEnv [wideLevel, narrowLevel] paired) g Event.timeout)).isNone =
        true := by
  cases paired <;> refine ⟨?_, ?_, ?_, ?_⟩ <;> decide

/-! ## The scoreboard -/

theorem receiveMove_scoreboard {env : Env} {g g' : Game} {x z : Int}
    (h : receiveMove env g x z = some g')
    (hshown : g.scoreboard = g.moves + g.movesThisLevel) :
    g'.scoreboard = g'.moves + g'.movesThisLevel := by
  rcases receiveMove_cases h with
    ⟨_, rfl⟩ | ⟨_, rfl | rfl | ⟨rfl, _⟩ | ⟨tile, tiles, _, _, hu, rfl⟩⟩
  · exact hshown
  · exact hshown
  · have hf := lose_fields env g
    rw [hf.2.2.2.1, hf.2.1, hf.2.2.1]
    exact hshown
  · have hf := win_fields env g
    rw [hf.2.2.2.1, hf.2.1, hf.2.2.1]
    rfl
  · exact hshown

theorem receiveMoves_scoreboard {env : Env} (coords : List (Int × Int)) :
    ∀ {g g' : Game}, receiveMoves env g coords = some g' →
      g.scoreboard = g.moves + g.movesThisLevel →
      g'.scoreboard = g'.moves + g'.movesThisLevel := by
  induction coords with
  | nil =>
    intro g g' h hshown
    simp only [receiveMoves, Option.some.injEq] at h
    rw [← h]; exact hshown
  | cons coord rest ih =>
    intro g g' h hshown
    unfold receiveMoves at h
    split at h
    · simp at h
    · rename_i g1 h1
      exact ih h (receiveMove_scoreboard h1 hshown)

theorem reset_eq (env : Env) (g : Game) :
    reset env g =
      startNextLevel env
        { g with modalDisplay := "none", level := -1, moves := 0, movesThisLevel := 0,
                 scoreboard := 0 } := rfl

/-- C11: the scoreboard shows `moves + movesThisLevel` after every completed
accepted move, after `win()`, after the cleanup closure of `lose` and after
`reset()`, whatever it showed before; after `win()` and after the cleanup
`movesThisLevel` is 0, so it shows `moves` alone.  Each of these operations
does complete: the move on a board where every lookup succeeds, the cleanup
when the links of the recorded activators are in bounds, and `reset()` when
`LEVELS[0]` exists. -/
theorem scoreboard_shows_total (env : Env) (g : Game) :
    (∀ key ∈ KEYDOWN_EVENTS,
      (∀ g', handleKeydown env g key = some g' →
        g'.scoreboard = g'.moves + g'.movesThisLevel) ∧
      (WellLinked g.tiles → ∃ g', handleKeydown env g key = some g' ∧
        g'.scoreboard = g'.moves + g'.movesThisLevel)) ∧
    ((win env g).scoreboard = (win env g).moves + (win env g).movesThisLevel ∧
      (win env g).scoreboard = (win env g).moves) ∧
    ((∀ g', loseCleanup env g = some g' →
        g'.scoreboard = g'.moves + g'.movesThisLevel ∧ g'.scoreboard = g'.moves) ∧
      ((∀ a ∈ g.activators, InBounds g.tiles a.bridgeCoords) →
        ∃ g', loseCleanup env g = some g' ∧
          g'.scoreboard = g'.moves + g'.movesThisLevel ∧ g'.scoreboard = g'.moves)) ∧
    ((∀ g', reset env g = some g' →
        g'.scoreboard = g'.moves + g'.movesThisLevel ∧ g'.scoreboard = g'.moves) ∧
      ((levelAt env 0).isSome →
        ∃ g', reset env g = some g' ∧
          g'.scoreboard = g'.moves + g'.movesThisLevel ∧ g'.scoreboard = g'.moves)) := by
  have hmove : ∀ key ∈ KEYDOWN_EVENTS, ∀ g', handleKeydown env g key = some g' →
      g'.scoreboard = g'.moves + g'.movesThisLevel := by
    intro key hkey g' h
    obtain ⟨pose, _, hmove⟩ := handleKeydown_arrow env g hkey
    rw [hmove] at h
    exact receiveMoves_scoreboard pose.coords h rfl
  have hclean : ∀ g', loseCleanup env g = some g' →
      g'.scoreboard = g'.moves + g'.movesThisLevel ∧ g'.scoreboard = g'.moves := by
    intro g' h
    have hf := loseCleanup_fields h
    rw [hf.2.2.2.1, hf.2.1, hf.2.2.1]
    exact ⟨rfl, rfl⟩
  have hreset : ∀ g', reset env g = some g' →
      g'.scoreboard = g'.moves + g'.movesThisLevel ∧ g'.scoreboard = g'.moves := by
    intro g' h
    rw [reset_eq] at h
    have hf := startNextLevel_fields h
    rw [hf.2.2.2.2.1, hf.2.2.1, hf.2.2.2.1]
    exact ⟨rfl, rfl⟩
  refine ⟨?_, ?_, ⟨hclean, ?_⟩, ⟨hreset, ?_⟩⟩
  · intro key hkey
    refine ⟨hmove key hkey, ?_⟩
    intro hlinked
    obtain ⟨pose, _, hroll⟩ := handleKeydown_arrow env g hkey
    have hl : WellLinked (afterRoll g pose).tiles := hlinked
    obtain ⟨g', hg', _⟩ := WellLinked.receiveMoves env pose.coords hl
    have hdone : handleKeydown env g key = some g' := hroll.trans hg'
    exact ⟨g', hdone, hmove key hkey g' hdone⟩
  · have hf := win_fields env g
    rw [hf.2.2.2.1, hf.2.1, hf.2.2.1]
    exact ⟨rfl, rfl⟩
  · intro hlinks
    obtain ⟨g', hg'⟩ := Option.isSome_iff_exists.mp
      (loseCleanup_isSome env g (resetBridges_isSome g.activators hlinks))
    exact ⟨g', hg', hclean g' hg'⟩
  · intro hfirst
    have hsome : (reset env g).isSome := by
      rw [reset_eq]
      apply startNextLevel_isSome
      right
      exact hfirst
    obtain ⟨g', hg'⟩ := Option.isSome_iff_exists.mp hsome
    exact ⟨g', hg', hreset g' hg'⟩

theorem scoreboard_shows_total_witness :
    (midGame.scoreboard, midGame.moves, midGame.movesThisLevel) = (99, 3, 4) ∧
      (handleKeydown rollingEnv midGame "ArrowLeft").map
          (fun g => (g.scoreboard, g.moves, g.movesThisLevel)) = some (8, 3, 5) ∧
      ((win rollingEnv midGame).scoreboard, (win rollingEnv midGame).moves,
          (win rollingEnv midGame).movesThisLevel) = (7, 7, 0) ∧
      (loseCleanup rollingEnv midGame).map
          (fun g => (g.scoreboard, g.moves, g.movesThisLevel)) = some (3, 3, 0) ∧
      (reset rollingEnv midGame).map
          (fun g => (g.scoreboard, g.moves, g.movesThisLevel)) = some (0, 0, 0) ∧
      (∃ g', handleKeydown rollingEnv midGame "ArrowLeft" = some g' ∧
        g'.scoreboard = g'.moves + g'.movesThisLevel) ∧
      (∃ g', loseCleanup rollingEnv midGame = some g' ∧
        g'.scoreboard = g'.moves + g'.movesThisLevel ∧ g'.scoreboard = g'.moves) ∧
      (∃ g', reset rollingEnv midGame = some g' ∧
        g'.scoreboard = g'.moves + g'.movesThisLevel ∧ g'.scoreboard = g'.moves) :=
  ⟨by decide, by decide, by decide, by decide, by decide,
    ((scoreboard_shows_total rollingEnv midGame).1 "ArrowLeft" (by decide)).2 (by decide),
    (scoreboard_shows_total rollingEnv midGame).2.2.1.2 (by decide),
    (scoreboard_shows_total rollingEnv midGame).2.2.2.2 (by decide)⟩

/-! ## Full reset -/

/-- C12: when `LEVELS[0]` exists, `reset()` completes from any state, and
afterwards `level`, `moves` and `movesThisLevel` are 0, `checkNextCoord` is
true, the modal is hidden, `block.initialPos` is `LEVELS[0].startPosition`
and `board.tiles` is the grid built from `LEVELS[0].board`. -/
theorem reset_lands_on_first_level (env : Env) (g : Game) (lvl : Level)
    (hfirst : levelAt env 0 = some lvl) :
    ∃ g', reset env g = some g' ∧ g'.level = 0 ∧ g'.moves = 0 ∧ g'.movesThisLevel = 0 ∧
      g'.checkNextCoord = true ∧ g'.modalDisplay = "none" ∧
      g'.block.initialPos = lvl.startPosition ∧ g'.tiles = env.createTiles lvl.board := by
  have hsome : (reset env g).isSome := by
    rw [reset_eq]
    apply startNextLevel_isSome
    right
    show (levelAt env (-1 + 1)).isSome
    rw [show (-1 : Int) + 1 = 0 from rfl, hfirst]
    rfl
  obtain ⟨g', hg'⟩ := Option.isSome_iff_exists.mp hsome
  have hg0 := hg'
  rw [reset_eq] at hg0
  have hf := startNextLevel_fields hg0
  have hlevel : g'.level = 0 := hf.1
  have h6 : g'.level ≠ 6 := by rw [hlevel]; decide
  obtain ⟨lvl', hl', hpos, htiles, hmodal⟩ := hf.2.2.2.2.2.2.2.2 h6
  rw [hlevel, hfirst] at hl'
  simp only [Option.some.injEq] at hl'
  subst hl'
  exact ⟨g', hg', hlevel, hf.2.2.1, hf.2.2.2.1, hf.2.1, hmodal, hpos, htiles⟩

theorem reset_lands_on_first_level_witness :
    levelAt rollingEnv 0 = some sampleLevel ∧
      ∃ g', reset rollingEnv leakAfter = some g' ∧ g'.level = 0 ∧ g'.moves = 0 ∧
        g'.movesThisLevel = 0 ∧ g'.checkNextCoord = true ∧ g'.modalDisplay = "none" ∧
        g'.block.initialPos = sampleLevel.startPosition ∧
        g'.tiles = rollingEnv.createTiles sampleLevel.board :=
  ⟨by decide, reset_lands_on_first_level rollingEnv leakAfter sampleLevel (by decide)⟩

/-! ## Inputs and tiles without effect -/

/-- C14: `handleKeydown` with a key other than the four arrow keys returns
the state unchanged, and `receiveMove`, with `checkNextCoord` true, on a tile
of type `normal` or of none of the six known types returns the state
unchanged as well, so neither `win()` nor `lose()` was called. -/
theorem unrecognized_is_noop (env : Env) (g : Game) :
    (∀ key, key ∉ KEYDOWN_EVENTS → handleKeydown env g key = some g) ∧
    (∀ x z tile, g.checkNextCoord = true → lookupTile g.tiles x z = some tile →
      (tile.type = "normal" ∨
        (tile.type ≠ "empty" ∧ tile.type ≠ "goal" ∧ tile.type ≠ "bridge" ∧
          tile.type ≠ "activator" ∧ tile.type ≠ "fragile")) →
      receiveMove env g x z = some g) ∧
    (¬ winTriggered g g ∧ ¬ loseTriggered g g) := by
  refine ⟨fun key hkey => handleKeydown_other env g hkey, ?_,
    timers_ne_append _ _, timers_ne_append _ _⟩
  intro x z tile hcheck htile htype
  rcases htype with h1 | ⟨h2, h3, h4, h5, h6⟩
  · simp [receiveMove, hcheck, htile, h1]
  · simp [receiveMove, hcheck, htile, h2, h3, h4, h5, h6]

theorem unrecognized_is_noop_witness :
    "Enter" ∉ KEYDOWN_EVENTS ∧
      handleKeydown rollingEnv (gameOn sampleTiles "y" [(0, 0)]) "Enter" =
        some (gameOn sampleTiles "y" [(0, 0)]) ∧
      receiveMove rollingEnv (gameOn [[plainTile "lava", plainTile "normal"],
          [plainTile "normal", plainTile "normal"]] "y" [(0, 0)]) 0 0 =
        some (gameOn [[plainTile "lava", plainTile "normal"],
          [plainTile "normal", plainTile "normal"]] "y" [(0, 0)]) :=
  ⟨by decide,
    (unrecognized_is_noop rollingEnv (gameOn sampleTiles "y" [(0, 0)])).1 "Enter" (by decide),
    (unrecognized_is_noop rollingEnv (gameOn [[plainTile "lava", plainTile "normal"],
        [plainTile "normal", plainTile "normal"]] "y" [(0, 0)])).2.1 0 0 (plainTile "lava")
      rfl (by decide)
      (Or.inr ⟨by decide, by decide, by decide, by decide, by decide⟩)⟩

/-! ## One evaluation of an activator -/

theorem count_eq_one_of_nodup (coords : List (Int × Int)) (coord : Int × Int)
    (hnodup : coords.Nodup) (hmem : coord ∈ coords) : coords.count coord = 1 := by
  induction coords with
  | nil => simp at hmem
  | cons first rest ih =>
    rw [List.nodup_cons] at hnodup
    by_cases hfirst : first = coord
    · subst hfirst
      rw [List.count_cons_self, List.count_eq_zero.mpr hnodup.1]
    · have hb : (first == coord) = false := by simpa using hfirst
      have hrest : coord ∈ rest := by
        rcases List.mem_cons.mp hmem with h | h
        · exact absurd h.symm hfirst
        · exact h
      rw [List.count_cons, hb, ih hnodup.2 hrest]
      rfl

theorem flip_iterate_parity (n : Nat) (b : Bool) :
    (fun wasActivated : Bool => !wasActivated)^[n] b = if n % 2 = 1 then !b else b := by
  induction n with
  | zero => rfl
  | succ n ih =>
    rw [Function.iterate_succ_apply', ih]
    rcases Nat.mod_two_eq_zero_or_one n with h | h
    · have h' : (n + 1) % 2 = 1 := by omega
      simp [h, h']
    · have h' : (n + 1) % 2 = 0 := by omega
      simp [h, h']

theorem updateFlags_inBounds {f : Bool → Bool} (coords : List (Int × Int)) :
    ∀ {tiles tiles' : Tiles}, updateFlags f tiles coords = some tiles' →
      InBounds tiles coords := by
  induction coords with
  | nil =>
    intro tiles tiles' _ c hc
    simp at hc
  | cons coord rest ih =>
    intro tiles tiles' h c hc
    unfold updateFlags at h
    split at h
    · simp at h
    · rename_i tiles1 h1
      rcases List.mem_cons.mp hc with rfl | hrest
      · unfold updateFlag at h1
        split at h1
        · simp at h1
        · rename_i t ht
          rw [ht]
          rfl
      · have hin := ih h c hrest
        rw [tileAt_updateFlag h1] at hin
        cases hres : tileAt tiles c.1 c.2 with
        | none => simp [hres] at hin
        | some t => rfl

/-- C15 (amended): with `checkNextCoord` true, evaluating an activator whose
`bridgeCoords` all address tiles of the board completes; it negates
`isActivated` on every tile that `bridgeCoords` lists an odd number of times
(every listed tile, when none is listed twice) and leaves every other tile,
and the type and links of every tile, as they were; it appends the activator
to `activators` and sets no timer, so neither `win()` nor `lose()` was
called.  When some entry of `bridgeCoords` addresses no tile, the evaluation
throws. -/
theorem activator_flips_odd_links (env : Env) (g : Game) (x z : Int) (tile : Tile)
    (hcheck : g.checkNextCoord = true)
    (htile : lookupTile g.tiles x z = some tile)
    (hact : tile.type = "activator") :
    (InBounds g.tiles tile.bridgeCoords →
      ∃ g', receiveMove env g x z = some g' ∧
        (∀ row col : Int, tileAt g'.tiles row col =
          (tileAt g.tiles row col).map (fun t =>
            if tile.bridgeCoords.count (row, col) % 2 = 1 then
              { t with isActivated := !t.isActivated }
            else t)) ∧
        (tile.bridgeCoords.Nodup → ∀ row col : Int, tileAt g'.tiles row col =
          (tileAt g.tiles row col).map (fun t =>
            if (row, col) ∈ tile.bridgeCoords then { t with isActivated := !t.isActivated }
            else t)) ∧
        g'.activators = g.activators ++ [tile] ∧
        g'.timers = g.timers ∧ ¬ winTriggered g g' ∧ ¬ loseTriggered g g') ∧
    (¬ InBounds g.tiles tile.bridgeCoords → receiveMove env g x z = none) := by
  constructor
  · intro hlinks
    obtain ⟨tiles1, h1⟩ := Option.isSome_iff_exists.mp
      (updateFlags_isSome (fun wasActivated => !wasActivated) tile.bridgeCoords hlinks)
    have hparity : ∀ row col : Int, tileAt tiles1 row col =
        (tileAt g.tiles row col).map (fun t =>
          if tile.bridgeCoords.count (row, col) % 2 = 1 then
            { t with isActivated := !t.isActivated }
          else t) := by
      intro row col
      rw [tileAt_updateFlags _ h1]
      cases tileAt g.tiles row col with
      | none => rfl
      | some t =>
        simp only [Option.map_some', Tile.withFlag, flip_iterate_parity]
        split <;> rfl
    refine ⟨afterActivator g tile tiles1, ?_, hparity, ?_, rfl, rfl, ?_, ?_⟩
    · rw [receiveMove_activator env g x z tile hcheck htile hact, h1]
      rfl
    · intro hnodup row col
      show tileAt tiles1 row col = _
      rw [hparity row col]
      by_cases hin : (row, col) ∈ tile.bridgeCoords
      · have hcount : tile.bridgeCoords.count (row, col) = 1 :=
          count_eq_one_of_nodup _ _ hnodup hin
        simp only [hcount, hin, if_true]
      · have hcount : tile.bridgeCoords.count (row, col) = 0 :=
          List.count_eq_zero.mpr hin
        simp only [hcount, hin, if_false]
        rfl
    · exact timers_ne_append _ _
    · exact timers_ne_append _ _
  · intro hout
    rw [receiveMove_activator env g x z tile hcheck htile hact]
    cases hu : updateFlags (fun wasActivated => !wasActivated) g.tiles tile.bridgeCoords with
    | none => rfl
    | some tiles1 => exact absurd (updateFlags_inBounds _ hu) hout

theorem activator_flips_odd_links_witness :
    (gameOn sampleTiles "x" [(1, 1), (2, 1)]).checkNextCoord = true ∧
      lookupTile (gameOn sampleTiles "x" [(1, 1), (2, 1)]).tiles 1 1 = some sampleActivator ∧
      sampleActivator.type = "activator" ∧
      InBounds (gameOn sampleTiles "x" [(1, 1), (2, 1)]).tiles sampleActivator.bridgeCoords ∧
      (tileAt sampleTiles 2 1).map (fun t => (t.type, t.isActivated)) =
        some ("bridge", false) ∧
      (receiveMove rollingEnv (gameOn sampleTiles "x" [(1, 1), (2, 1)]) 1 1).map
          (fun g => (tileAt g.tiles 2 1).map (fun t => (t.type, t.isActivated))) =
        some (some ("bridge", true)) ∧
      ∃ g', receiveMove rollingEnv (gameOn sampleTiles "x" [(1, 1), (2, 1)]) 1 1 = some g' ∧
        (∀ row col : Int, tileAt g'.tiles row col =
          (tileAt (gameOn sampleTiles "x" [(1, 1), (2, 1)]).tiles row col).map (fun t =>
            if sampleActivator.bridgeCoords.count (row, col) % 2 = 1 then
              { t with isActivated := !t.isActivated }
            else t)) ∧
        (sampleActivator.bridgeCoords.Nodup → ∀ row col : Int, tileAt g'.tiles row col =
          (tileAt (gameOn sampleTiles "x" [(1, 1), (2, 1)]).tiles row col).map (fun t =>
            if (row, col) ∈ sampleActivator.bridgeCoords then
              { t with isActivated := !t.isActivated }
            else t)) ∧
        g'.activators = (gameOn sampleTiles "x" [(1, 1), (2, 1)]).activators ++
          [sampleActivator] ∧
        g'.timers = (gameOn sampleTiles "x" [(1, 1), (2, 1)]).timers ∧
        ¬ winTriggered (gameOn sampleTiles "x" [(1, 1), (2, 1)]) g' ∧
        ¬ loseTriggered (gameOn sampleTiles "x" [(1, 1), (2, 1)]) g' :=
  ⟨rfl, by decide, rfl, by decide, by decide, by decide,
    (activator_flips_odd_links rollingEnv (gameOn sampleTiles "x" [(1, 1), (2, 1)]) 1 1
      sampleActivator rfl (by decide) rfl).1 (by decide)⟩

/-- C15, as stated, fails for an activator that lists a tile twice or lists
a coordinate off the board: evaluated once, the activator of `twiceTiles`
leaves the bridge at row 2, column 1, which it lists twice, deactivated as it
was, and the evaluation of the activator of `farTiles`, which lists row 2,
column 7, throws. -/
theorem activator_listed_twice_unchanged :
    (2, 1) ∈ twiceActivator.bridgeCoords ∧
      (tileAt twiceTiles 2 1).map (fun t => (t.type, t.isActivated)) =
        some ("bridge", false) ∧
      (receiveMove rollingEnv (gameOn twiceTiles "x" [(1, 1), (2, 1)]) 1 1).map
          (fun g => ((tileAt g.tiles 2 1).map (fun t => (t.type, t.isActivated)),
            g.activators.length, g.timers)) =
        some (some ("bridge", false), 1, []) ∧
      lookupTile farTiles 1 1 = some farActivator ∧
      (receiveMove rollingEnv (gameOn farTiles "x" [(1, 1), (2, 1)]) 1 1).isNone = true := by
  refine ⟨?_, ?_, ?_, ?_, ?_⟩ <;> decide

/-! ## At most one transition per move -/

theorem receiveMove_triggered_check {env : Env} {g g' : Game} {x z : Int}
    (h : receiveMove env g x z = some g') (ht : g'.timers ≠ g.timers) :
    g'.checkNextCoord = false := by
  rcases receiveMove_cases h with
    ⟨_, rfl⟩ | ⟨_, rfl | rfl | ⟨rfl, _⟩ | ⟨tile, tiles, _, _, hu, rfl⟩⟩
  · exact absurd rfl ht
  · exact absurd rfl ht
  · exact (lose_fields env g).2.2.2.2.2.2.1
  · exact (win_fields env g).2.2.2.2.2.2.1
  · exact absurd rfl ht

/-- C16: in an accepted move whose `block.coords` has two entries, if the
evaluation of the first coordinate calls `win()` or `lose()` then the call of
`receiveMove` for the second coordinate only sets `checkNextCoord` back to
true, and that is the state the move ends in; and every completed move of two
coordinates sets at most one timer, so it triggers at most one win-or-lose
transition. -/
theorem first_outcome_suppresses_second (env : Env) (g : Game) (key : String) (pose : Pose)
    (c1 c2 : Int × Int)
    (hkey : key ∈ KEYDOWN_EVENTS)
    (hpose : rollBlock env key g.block.pose = some pose)
    (hcoords : pose.coords = [c1, c2]) :
    (∀ g1, receiveMove env (afterRoll g pose) c1.1 c1.2 = some g1 →
      winTriggered g g1 ∨ loseTriggered g g1 →
      receiveMove env g1 c2.1 c2.2 = some { g1 with checkNextCoord := true } ∧
        handleKeydown env g key = some { g1 with checkNextCoord := true }) ∧
    (∀ g', handleKeydown env g key = some g' →
      g'.timers.length ≤ g.timers.length + 1) := by
  obtain ⟨pose', hpose', hmove⟩ := handleKeydown_arrow env g hkey
  rw [hpose] at hpose'
  simp only [Option.some.injEq] at hpose'
  subst hpose'
  rw [hmove, hcoords]
  constructor
  · intro g1 h1 htrig
    have hne : g1.timers ≠ (afterRoll g pose).timers := by
      show g1.timers ≠ g.timers
      rcases htrig with h | h
      · rw [h]; exact (timers_ne_append _ _).symm
      · rw [h]; exact (timers_ne_append _ _).symm
    have hskip := receiveMove_skip env g1 c2.1 c2.2 (receiveMove_triggered_check h1 hne)
    refine ⟨hskip, ?_⟩
    simp [receiveMoves, h1, hskip]
  · intro g' hg'
    unfold receiveMoves at hg'
    split at hg'
    · simp at hg'
    · rename_i g1 h1
      unfold receiveMoves at hg'
      split at hg'
      · simp at hg'
      · rename_i g2 h2
        simp only [receiveMoves, Option.some.injEq] at hg'
        subst hg'
        have h0 : (afterRoll g pose).timers = g.timers := rfl
        by_cases hne : g1.timers = (afterRoll g pose).timers
        · rcases receiveMove_timers h2 with h | h | h
          · rw [h, hne, h0]; omega
          · rw [h, hne, h0]; simp
          · rw [h, hne, h0]; simp
        · rw [receiveMove_skip env g1 c2.1 c2.2 (receiveMove_triggered_check h1 hne)] at h2
          simp only [Option.some.injEq] at h2
          subst h2
          rcases receiveMove_timers h1 with h | h | h
          · exact absurd h hne
          · show g1.timers.length ≤ _
            rw [h, h0]; simp
          · show g1.timers.length ≤ _
            rw [h, h0]; simp

theorem first_outcome_suppresses_second_witness :
    "ArrowLeft" ∈ KEYDOWN_EVENTS ∧
      rollBlock rollingEnv "ArrowLeft" (gameOn sampleTiles "y" [(2, 2)]).block.pose =
        some { alignment := "x", coords := [(0, 2), (1, 2)], height := 140 } ∧
      (tileAt sampleTiles 2 0).map (fun t => t.type) = some "empty" ∧
      (tileAt sampleTiles 2 1).map (fun t => (t.type, t.isActivated)) = some ("bridge", false) ∧
      handleKeydown rollingEnv (gameOn sampleTiles "y" [(2, 2)]) "ArrowLeft" =
        some { lose rollingEnv (afterRoll (gameOn sampleTiles "y" [(2, 2)])
            { alignment := "x", coords := [(0, 2), (1, 2)], height := 140 }) with
          checkNextCoord := true } ∧
      ∀ g', handleKeydown rollingEnv (gameOn sampleTiles "y" [(2, 2)]) "ArrowLeft" = some g' →
        g'.timers.length ≤ (gameOn sampleTiles "y" [(2, 2)]).timers.length + 1 :=
  ⟨by decide, by decide, by decide, by decide,
    ((first_outcome_suppresses_second rollingEnv (gameOn sampleTiles "y" [(2, 2)]) "ArrowLeft"
      { alignment := "x", coords := [(0, 2), (1, 2)], height := 140 } (0, 2) (1, 2)
      (by decide) (by decide) rfl).1 _ (by decide) (Or.inr (by decide))).2,
    (first_outcome_suppresses_second rollingEnv (gameOn sampleTiles "y" [(2, 2)]) "ArrowLeft"
      { alignment := "x", coords := [(0, 2), (1, 2)], height := 140 } (0, 2) (1, 2)
      (by decide) (by decide) rfl).2⟩

/-! ## Input during a transition -/

/-- A call of `lose()` or `win()` made while the block is at or below the
drop target re-attaches the key listener before it returns, with its
deferred step pending. -/
theorem transition_reattaches_at_once (env : Env) (g : Game)
    (hlow : g.block.height ≤ -1600) :
    (lose env g).listening = true ∧ Timer.loseCleanup ∈ (lose env g).timers ∧
      (win env g).listening = true ∧ Timer.startNextLevel ∈ (win env g).timers := by
  have hnot : ¬ g.block.height > -1600 := by omega
  refine ⟨?_, ?_, ?_, ?_⟩
  · simp [lose, dropBlock, unlistenKeydown, listenKeydown, hnot]
  · rw [timers_lose]; simp
  · simp [win, dropBlock, unlistenKeydown, listenKeydown, updateCounters, hnot]
  · rw [timers_win]; simp

/-- An animation frame that finds the block at or below its target attaches
the key listener, whatever timers are pending. -/
theorem frame_reattaches (env : Env) (g : Game) (targetHeight : Int) (rest : List Int)
    (hframes : g.frames = targetHeight :: rest) (hlow : g.block.height ≤ targetHeight) :
    ∃ g', dispatch env g Event.animationFrame = some g' ∧ g'.listening = true ∧
      g'.timers = g.timers := by
  have hnot : ¬ g.block.height > targetHeight := by omega
  refine ⟨listenKeydown { g with frames := rest }, ?_, rfl, rfl⟩
  simp only [dispatch, hframes]
  have hb : ({ g with frames := rest } : Game).block.height = g.block.height := rfl
  simp [dropBlock, hb, hnot]

/-- C13 is violated by the code.  In a new game on `corridorEnv` the block
rolls onto an empty tile and `lose()` detaches the listener; three animation
frames later the drop-out animation ends and `dropBlock` attaches it again
while the cleanup of `lose` is still pending, and the next key press is
evaluated as a move.  After the last level has been won, the block rests
below the drop target, and a `lose()` triggered there leaves the listener
attached, so that the following key press even triggers `win()`. -/
theorem listener_attached_during_transition :
    ((newGame corridorEnv).bind (fun g => run corridorEnv g
        [Event.animationFrame, Event.keydown "ArrowDown"])).map
        (fun g => (g.listening, g.timers, g.movesThisLevel, g.block.coords)) =
      some (false, [Timer.loseCleanup], 1, [(0, 1), (0, 2)]) ∧
    ((newGame corridorEnv).bind (fun g => run corridorEnv g
        [Event.animationFrame, Event.keydown "ArrowDown", Event.animationFrame,
          Event.animationFrame, Event.animationFrame])).map
        (fun g => (g.listening, g.timers, g.movesThisLevel, g.block.coords)) =
      some (true, [Timer.loseCleanup], 1, [(0, 1), (0, 2)]) ∧
    ((newGame corridorEnv).bind (fun g => run corridorEnv g
        [Event.animationFrame, Event.keydown "ArrowDown", Event.animationFrame,
          Event.animationFrame, Event.animationFrame, Event.keydown "ArrowRight"])).map
        (fun g => (g.listening, g.timers, g.movesThisLevel, g.block.coords)) =
      some (true, [Timer.loseCleanup], 2, [(1, 1), (1, 2)]) ∧
    corridorCompleted.map (fun g => (g.listening, g.timers, g.frames, g.block.height)) =
      some (true, [], [], -1660) ∧
    (corridorCompleted.bind (fun g => run corridorEnv g [Event.keydown "ArrowDown"])).map
        (fun g => (g.listening, g.timers, g.block.coords)) =
      some (true, [Timer.loseCleanup], [(3, 1), (3, 2)]) ∧
    (corridorCompleted.bind (fun g => run corridorEnv g
        [Event.keydown "ArrowDown", Event.keydown "ArrowUp"])).map
        (fun g => (g.listening, g.timers, g.block.coords)) =
      some (true, [Timer.loseCleanup, Timer.startNextLevel], [(3, 0)]) := by
  refine ⟨?_, ?_, ?_, ?_, ?_, ?_⟩ <;> decide

/-! ## The level index -/

/-- C17 is violated by the code.  In `corridorEnv`, with six levels, the game
played to its end is at level 6 with the modal shown, and the key listener is
attached again, the drop-out animation of the last `win()` having ended.  Two
key presses roll the block off the goal of the last board and back onto it;
`win()` is called once more, and its deferred `startNextLevel()` raises
`level` to 7 and throws on reading `LEVELS[7]`, which does not exist. -/
theorem level_overruns_catalog :
    corridorEnv.LEVELS.length = 6 ∧
    corridorCompleted.map (fun g => (g.level, g.listening, g.timers, g.modalDisplay)) =
      some (6, true, [], "flex") ∧
    (corridorCompleted.bind (fun g => run corridorEnv g
        [Event.keydown "ArrowLeft"])).map
        (fun g => (g.level, g.timers, g.block.coords, g.block.alignment)) =
      some (6, [], [(1, 0), (2, 0)], "x") ∧
    (corridorCompleted.bind (fun g => run corridorEnv g
        [Event.keydown "ArrowLeft", Event.keydown "ArrowRight"])).map
        (fun g => (g.level, g.timers, g.block.coords, g.block.alignment)) =
      some (6, [Timer.startNextLevel], [(3, 0)], "y") ∧
    corridorCompleted.bind (fun g => run corridorEnv g
        [Event.keydown "ArrowLeft", Event.keydown "ArrowRight", Event.timeout]) = none ∧
    levelAt corridorEnv (6 + 1) = none := by
  refine ⟨?_, ?_, ?_, ?_, ?_, ?_⟩ <;> decide

/-! ## The two versions of `receiveMove` -/

theorem outcome_of_same_timers {g g' : Game} (h : g'.timers = g.timers) :
    outcome g g' = Outcome.nothing := by
  unfold outcome
  rw [h, if_neg (timers_ne_append _ _), if_neg (timers_ne_append _ _)]

theorem outcome_lose (env : Env) (g : Game) : outcome g (lose env g) = Outcome.lose := by
  unfold outcome
  rw [timers_lose, if_neg (by simp), if_pos rfl]

theorem outcome_win (env : Env) (g : Game) : outcome g (win env g) = Outcome.win := by
  unfold outcome
  rw [timers_win, if_pos rfl]

theorem old_outcome_of_same_timers {g g' : Old.Game} (h : g'.timers = g.timers) :
    Old.outcome g g' = Outcome.nothing := by
  have hne : ∀ t : Old.Timer, g.timers ≠ g.timers ++ [t] := by
    intro t ht
    have := congrArg List.length ht
    simp at this
  unfold Old.outcome
  rw [h, if_neg (hne _), if_neg (hne _)]

theorem old_lose_fields (env : Env) (g : Old.Game) :
    (Old.lose env g).timers = g.timers ++ [Old.Timer.loseCleanup] ∧
      (Old.lose env g).checkNextCoord = false ∧ (Old.lose env g).tiles = g.tiles ∧
      (Old.lose env g).block =
        (if g.block.height > -1600 then { g.block with pose := env.drop g.block.pose }
          else g.block) := by
  unfold Old.lose Old.dropBlock Old.unlistenKeydown Old.listenKeydown
  simp only
  split <;> simp

theorem old_win_fields (env : Env) (g : Old.Game) :
    (Old.win env g).timers = g.timers ++ [Old.Timer.nextLevel] ∧
      (Old.win env g).checkNextCoord = false ∧ (Old.win env g).tiles = g.tiles ∧
      (Old.win env g).block =
        (if g.block.height > -1600 then { g.block with pose := env.drop g.block.pose }
          else g.block) := by
  unfold Old.win Old.dropBlock Old.unlistenKeydown Old.listenKeydown
  simp only
  split <;> simp

theorem lose_block (env : Env) (g : Game) :
    (lose env g).block =
      (if g.block.height > -1600 then { g.block with pose := env.drop g.block.pose }
        else g.block) := by
  unfold lose dropBlock unlistenKeydown listenKeydown
  simp only
  split <;> simp

theorem win_block (env : Env) (g : Game) :
    (win env g).block =
      (if g.block.height > -1600 then { g.block with pose := env.drop g.block.pose }
        else g.block) := by
  unfold win dropBlock unlistenKeydown listenKeydown updateCounters
  simp only
  split <;> simp

theorem old_outcome_lose (env : Env) (g : Old.Game) :
    Old.outcome g (Old.lose env g) = Outcome.lose := by
  unfold Old.outcome
  rw [(old_lose_fields env g).1, if_neg (by simp), if_pos rfl]

theorem old_outcome_win (env : Env) (g : Old.Game) :
    Old.outcome g (Old.win env g) = Outcome.win := by
  unfold Old.outcome
  rw [(old_win_fields env g).1, if_pos rfl]
theorem old_receiveMove_skip (env : Env) (o : Old.Game) (x z : Int)
    (hcheck : o.checkNextCoord = false) :
    Old.receiveMove env o x z = some { o with checkNextCoord := true } := by
  simp [Old.receiveMove, hcheck]

/-- The components on which the two versions are compared after a call that
triggered nothing, and what the newer version did to `activators`. -/
theorem versions_agree_quiet (o o' : Old.Game) (g g' : Game) (x z : Int)
    (hot : o'.timers = o.timers) (hgt : g'.timers = g.timers)
    (hc : o'.checkNextCoord = g'.checkNextCoord) (ht : o'.tiles = g'.tiles)
    (hb : o'.block = g'.block)
    (hrest : o'.level = o.level ∧ o'.moves = o.moves ∧ o'.scoreboard = o.scoreboard ∧
      g'.level = g.level ∧ g'.moves = g.moves ∧ g'.movesThisLevel = g.movesThisLevel ∧
      g'.scoreboard = g.scoreboard ∧ g'.modalDisplay = g.modalDisplay ∧
      (g'.activators = g.activators ∨
        ∃ tile, g.checkNextCoord = true ∧ lookupTile g.tiles x z = some tile ∧
          tile.type = "activator" ∧ g'.activators = g.activators ++ [tile])) :
    Old.outcome o o' = outcome g g' ∧ o'.checkNextCoord = g'.checkNextCoord ∧
      o'.tiles = g'.tiles ∧ o'.block = g'.block ∧
      (outcome g g' = Outcome.nothing →
        o'.level = o.level ∧ o'.moves = o.moves ∧ o'.scoreboard = o.scoreboard ∧
        g'.level = g.level ∧ g'.moves = g.moves ∧ g'.movesThisLevel = g.movesThisLevel ∧
        g'.scoreboard = g.scoreboard ∧ g'.modalDisplay = g.modalDisplay ∧
        (g'.activators = g.activators ∨
          ∃ tile, g.checkNextCoord = true ∧ lookupTile g.tiles x z = some tile ∧
            tile.type = "activator" ∧ g'.activators = g.activators ++ [tile])) :=
  ⟨by rw [old_outcome_of_same_timers hot, outcome_of_same_timers hgt], hc, ht, hb,
    fun _ => hrest⟩

/-- C18: from states with the same `checkNextCoord`, board and block, the
calls of `receiveMove` in the two versions both complete or both throw; when
they complete they triggered the same outcome and left the same
`checkNextCoord`, the same tiles and the same block; and when nothing was
triggered, both left their counters and level alone and the newer version
changed nothing else than `activators`, to which it appended the activator
it evaluated. -/
theorem receiveMove_versions_agree (env : Env) (o : Old.Game) (g : Game) (x z : Int)
    (hcheck : o.checkNextCoord = g.checkNextCoord) (htiles : o.tiles = g.tiles)
    (hblock : o.block = g.block) :
    (Old.receiveMove env o x z).isSome = (receiveMove env g x z).isSome ∧
    ∀ o' g', Old.receiveMove env o x z = some o' → receiveMove env g x z = some g' →
      Old.outcome o o' = outcome g g' ∧ o'.checkNextCoord = g'.checkNextCoord ∧
      o'.tiles = g'.tiles ∧ o'.block = g'.block ∧
      (outcome g g' = Outcome.nothing →
        o'.level = o.level ∧ o'.moves = o.moves ∧ o'.scoreboard = o.scoreboard ∧
        g'.level = g.level ∧ g'.moves = g.moves ∧ g'.movesThisLevel = g.movesThisLevel ∧
        g'.scoreboard = g.scoreboard ∧ g'.modalDisplay = g.modalDisplay ∧
        (g'.activators = g.activators ∨
          ∃ tile, g.checkNextCoord = true ∧ lookupTile g.tiles x z = some tile ∧
            tile.type = "activator" ∧ g'.activators = g.activators ++ [tile])) := by
  have hquiet : ∀ o' g', o' = o → g' = g →
      Old.outcome o o' = outcome g g' ∧ o'.checkNextCoord = g'.checkNextCoord ∧
      o'.tiles = g'.tiles ∧ o'.block = g'.block ∧
      (outcome g g' = Outcome.nothing →
        o'.level = o.level ∧ o'.moves = o.moves ∧ o'.scoreboard = o.scoreboard ∧
        g'.level = g.level ∧ g'.moves = g.moves ∧ g'.movesThisLevel = g.movesThisLevel ∧
        g'.scoreboard = g.scoreboard ∧ g'.modalDisplay = g.modalDisplay ∧
        (g'.activators = g.activators ∨
          ∃ tile, g.checkNextCoord = true ∧ lookupTile g.tiles x z = some tile ∧
            tile.type = "activator" ∧ g'.activators = g.activators ++ [tile])) := by
    intro o' g' ho hg
    rw [ho, hg]
    exact versions_agree_quiet o o g g x z rfl rfl hcheck htiles hblock
      ⟨rfl, rfl, rfl, rfl, rfl, rfl, rfl, rfl, Or.inl rfl⟩
  have hlose : ∀ o' g', o' = Old.lose env o → g' = lose env g →
      Old.outcome o o' = outcome g g' ∧ o'.checkNextCoord = g'.checkNextCoord ∧
      o'.tiles = g'.tiles ∧ o'.block = g'.block ∧
      (outcome g g' = Outcome.nothing →
        o'.level = o.level ∧ o'.moves = o.moves ∧ o'.scoreboard = o.scoreboard ∧
        g'.level = g.level ∧ g'.moves = g.moves ∧ g'.movesThisLevel = g.movesThisLevel ∧
        g'.scoreboard = g.scoreboard ∧ g'.modalDisplay = g.modalDisplay ∧
        (g'.activators = g.activators ∨
          ∃ tile, g.checkNextCoord = true ∧ lookupTile g.tiles x z = some tile ∧
            tile.type = "activator" ∧ g'.activators = g.activators ++ [tile])) := by
    intro o' g' ho hg
    rw [ho, hg]
    have hof := old_lose_fields env o
    have hgf := lose_fields env g
    refine ⟨by rw [old_outcome_lose, outcome_lose], ?_, ?_, ?_, ?_⟩
    · rw [hof.2.1, hgf.2.2.2.2.2.2.1]
    · rw [hof.2.2.1, hgf.2.2.2.2.1, htiles]
    · rw [hof.2.2.2, lose_block, hblock]
    · intro h
      rw [outcome_lose] at h
      exact absurd h (by decide)
  have hwin : ∀ o' g', o' = Old.win env o → g' = win env g →
      Old.outcome o o' = outcome g g' ∧ o'.checkNextCoord = g'.checkNextCoord ∧
      o'.tiles = g'.tiles ∧ o'.block = g'.block ∧
      (outcome g g' = Outcome.nothing →
        o'.level = o.level ∧ o'.moves = o.moves ∧ o'.scoreboard = o.scoreboard ∧
        g'.level = g.level ∧ g'.moves = g.moves ∧ g'.movesThisLevel = g.movesThisLevel ∧
        g'.scoreboard = g.scoreboard ∧ g'.modalDisplay = g.modalDisplay ∧
        (g'.activators = g.activators ∨
          ∃ tile, g.checkNextCoord = true ∧ lookupTile g.tiles x z = some tile ∧
            tile.type = "activator" ∧ g'.activators = g.activators ++ [tile])) := by
    intro o' g' ho hg
    rw [ho, hg]
    have hof := old_win_fields env o
    have hgf := win_fields env g
    refine ⟨by rw [old_outcome_win, outcome_win], ?_, ?_, ?_, ?_⟩
    · rw [hof.2.1, hgf.2.2.2.2.2.2.1]
    · rw [hof.2.2.1, hgf.2.2.2.2.1, htiles]
    · rw [hof.2.2.2, win_block, hblock]
    · intro h
      rw [outcome_win] at h
      exact absurd h (by decide)
  have halign : o.block.alignment = g.block.alignment := by rw [hblock]
  by_cases hc : g.checkNextCoord = false
  · have hoc : o.checkNextCoord = false := hcheck.trans hc
    rw [old_receiveMove_skip env o x z hoc, receiveMove_skip env g x z hc]
    refine ⟨rfl, ?_⟩
    intro o' g' ho hg
    simp only [Option.some.injEq] at ho hg
    subst ho hg
    refine versions_agree_quiet o _ g _ x z ?_ ?_ ?_ ?_ ?_ ?_
    · rfl
    · rfl
    · rfl
    · exact htiles
    · exact hblock
    · exact ⟨rfl, rfl, rfl, rfl, rfl, rfl, rfl, rfl, Or.inl rfl⟩
  · have hc : g.checkNextCoord = true := by simpa using hc
    have hoc : o.checkNextCoord = true := hcheck.trans hc
    rcases Option.eq_none_or_eq_some (lookupTile g.tiles x z) with hl | ⟨tile, hl⟩
    · have hlo : lookupTile o.tiles x z = none := by rw [htiles, hl]
      have h1 : Old.receiveMove env o x z = none := by simp [Old.receiveMove, hoc, hlo]
      have h2 : receiveMove env g x z = none := by simp [receiveMove, hc, hl]
      rw [h1, h2]
      exact ⟨rfl, fun o' g' ho _ => by simp at ho⟩
    · have hlo : lookupTile o.tiles x z = some tile := by rw [htiles, hl]
      by_cases h5 : tile.type = "activator"
      · rw [receiveMove_activator env g x z tile hc hl h5]
        have hold : Old.receiveMove env o x z =
            (updateFlags (fun wasActivated => !wasActivated) g.tiles tile.bridgeCoords).map
              (fun tiles => { o with
                tiles := tiles
                checkNextCoord := if o.block.alignment = "y" then false else o.checkNextCoord }) := by
          simp only [Old.receiveMove, hoc, htiles, hl, h5]
          simp only [Bool.true_eq_false, if_false]
          rw [if_neg (by decide), if_neg (by decide), if_neg (by decide), if_neg (by decide),
            if_pos trivial]
          cases updateFlags (fun wasActivated => !wasActivated) g.tiles tile.bridgeCoords with
          | none => rfl
          | some tiles =>
            simp only [Option.map_some']
            split <;> rfl
        rw [hold]
        cases updateFlags (fun wasActivated => !wasActivated) g.tiles tile.bridgeCoords with
        | none => simp
        | some tiles =>
          refine ⟨rfl, ?_⟩
          intro o' g' ho hg
          simp only [Option.map_some', Option.some.injEq] at ho hg
          subst ho hg
          refine versions_agree_quiet o _ g _ x z ?_ ?_ ?_ ?_ ?_ ?_
          · rfl
          · rfl
          · simp only [afterActivator, halign, hoc, hc]
          · rfl
          · exact hblock
          · exact ⟨rfl, rfl, rfl, rfl, rfl, rfl, rfl, rfl, Or.inr ⟨tile, hc, hl, h5, rfl⟩⟩
      · have hpair :
            (Old.receiveMove env o x z = some o ∧ receiveMove env g x z = some g) ∨
            (Old.receiveMove env o x z = some (Old.lose env o) ∧
              receiveMove env g x z = some (lose env g)) ∨
            (Old.receiveMove env o x z = some (Old.win env o) ∧
              receiveMove env g x z = some (win env g)) := by
          simp only [Old.receiveMove, receiveMove, hc, hoc, hl, hlo, h5, halign]
          simp only [Bool.true_eq_false, if_false]
          repeat' split
          all_goals simp
        rcases hpair with ⟨ho, hg⟩ | ⟨ho, hg⟩ | ⟨ho, hg⟩
        all_goals rw [ho, hg]
        all_goals refine ⟨rfl, ?_⟩
        all_goals intro o' g' ho' hg'
        all_goals simp only [Option.some.injEq] at ho' hg'
        · exact hquiet o' g' ho'.symm hg'.symm
        · exact hlose o' g' ho'.symm hg'.symm
        · exact hwin o' g' ho'.symm hg'.symm

theorem receiveMove_versions_agree_witness :
    (oldGameOn sampleTiles "y" [(2, 0)]).checkNextCoord =
        (gameOn sampleTiles "y" [(2, 0)]).checkNextCoord ∧
      (oldGameOn sampleTiles "y" [(2, 0)]).tiles = (gameOn sampleTiles "y" [(2, 0)]).tiles ∧
      (oldGameOn sampleTiles "y" [(2, 0)]).block = (gameOn sampleTiles "y" [(2, 0)]).block ∧
      (Old.receiveMove rollingEnv (oldGameOn sampleTiles "y" [(2, 0)]) 2 0).map
          (fun o => (o.checkNextCoord, o.timers)) = some (false, [Old.Timer.nextLevel]) ∧
      (receiveMove rollingEnv (gameOn sampleTiles "y" [(2, 0)]) 2 0).map
          (fun g => (g.checkNextCoord, g.timers)) = some (false, [Timer.startNextLevel]) ∧
      (Old.receiveMove rollingEnv (oldGameOn sampleTiles "y" [(2, 0)]) 2 0).isSome =
        (receiveMove rollingEnv (gameOn sampleTiles "y" [(2, 0)]) 2 0).isSome :=
  ⟨rfl, rfl, rfl, by decide, by decide,
    (receiveMove_versions_agree rollingEnv (oldGameOn sampleTiles "y" [(2, 0)])
      (gameOn sampleTiles "y" [(2, 0)]) 2 0 rfl rfl rfl).1⟩

end Bloxy
